import Mathlib

/-!
Verification development for the tfp financial planning engine.

Shallow embedding of the Python sources under src/tfp/ over exact rational
arithmetic (Python floats are modelled as ℚ; the spec explicitly allows
stating the accounting identities over exact arithmetic).  Dictionaries
whose values the code reads with `.get(key, default)` are modelled as total
functions with the default filled in; the engine guarantees key presence
for the bracketed accesses, so the embeddings agree with the source on
every reachable state.
-/

namespace TFP

/-! ## tax_data.py -/

/-- A bracket row from tax_data.py: (optional upper bound, marginal rate);
`none` as upper bound means infinity. -/
abbrev Bracket := Option ℚ × ℚ

def BASE_TAX_YEAR : Int := 2026

def DEFAULT_BRACKET_INFLATION : ℚ := 25/1000

/-- Keys of FEDERAL_BRACKETS[BASE_TAX_YEAR] in tax_data.py. -/
def federal_bracket_statuses : List String :=
  ["single", "married_filing_jointly", "married_filing_separately",
   "head_of_household", "qualifying_surviving_spouse"]

/-- FEDERAL_BRACKETS[2026] from tax_data.py. -/
def FEDERAL_BRACKETS (fs : String) : List Bracket :=
  if fs = "single" then
    [(some 12400, 10/100), (some 50400, 12/100), (some 105700, 22/100),
     (some 201775, 24/100), (some 256225, 32/100), (some 640600, 35/100), (none, 37/100)]
  else if fs = "married_filing_jointly" then
    [(some 24800, 10/100), (some 100800, 12/100), (some 211400, 22/100),
     (some 403550, 24/100), (some 512450, 32/100), (some 768700, 35/100), (none, 37/100)]
  else if fs = "married_filing_separately" then
    [(some 12400, 10/100), (some 50400, 12/100), (some 105700, 22/100),
     (some 201775, 24/100), (some 256225, 32/100), (some 384350, 35/100), (none, 37/100)]
  else if fs = "head_of_household" then
    [(some 17700, 10/100), (some 67450, 12/100), (some 105700, 22/100),
     (some 201750, 24/100), (some 256200, 32/100), (some 640600, 35/100), (none, 37/100)]
  else if fs = "qualifying_surviving_spouse" then
    [(some 24800, 10/100), (some 100800, 12/100), (some 211400, 22/100),
     (some 403550, 24/100), (some 512450, 32/100), (some 768700, 35/100), (none, 37/100)]
  else []

/-- CAPITAL_GAINS_BRACKETS[2026] from tax_data.py. -/
def CAPITAL_GAINS_BRACKETS (fs : String) : List Bracket :=
  if fs = "single" then [(some 50800, 0), (some 557000, 15/100), (none, 20/100)]
  else if fs = "married_filing_jointly" then [(some 101600, 0), (some 626350, 15/100), (none, 20/100)]
  else if fs = "married_filing_separately" then [(some 50800, 0), (some 313175, 15/100), (none, 20/100)]
  else if fs = "head_of_household" then [(some 68050, 0), (some 595350, 15/100), (none, 20/100)]
  else if fs = "qualifying_surviving_spouse" then [(some 101600, 0), (some 626350, 15/100), (none, 20/100)]
  else []

/-- STANDARD_DEDUCTIONS[2026] from tax_data.py. -/
def STANDARD_DEDUCTIONS (fs : String) : ℚ :=
  if fs = "single" then 16100
  else if fs = "married_filing_jointly" then 32200
  else if fs = "married_filing_separately" then 16100
  else if fs = "head_of_household" then 24150
  else if fs = "qualifying_surviving_spouse" then 32200
  else 0

/-- NIIT_THRESHOLDS from tax_data.py. -/
def NIIT_THRESHOLDS (fs : String) : ℚ :=
  if fs = "single" then 200000
  else if fs = "married_filing_jointly" then 250000
  else if fs = "married_filing_separately" then 125000
  else if fs = "head_of_household" then 200000
  else if fs = "qualifying_surviving_spouse" then 250000
  else 0

/-- AMT_EXEMPTIONS from tax_data.py: (exemption, phaseout_start). -/
def AMT_EXEMPTIONS (fs : String) : ℚ × ℚ :=
  if fs = "single" then (88100, 626350)
  else if fs = "married_filing_jointly" then (137000, 1252700)
  else if fs = "married_filing_separately" then (68500, 626350)
  else if fs = "head_of_household" then (88100, 626350)
  else if fs = "qualifying_surviving_spouse" then (137000, 1252700)
  else (0, 0)

/-- AMT_BRACKETS from tax_data.py. -/
def AMT_BRACKETS : List Bracket := [(some 220700, 26/100), (none, 28/100)]

/-- FICA_RATES[2026] from tax_data.py, one definition per key. -/
def fica_social_security_rate : ℚ := 62/1000

def fica_social_security_wage_base : ℚ := 184500

def fica_medicare_rate : ℚ := 145/10000

def fica_additional_medicare_rate : ℚ := 9/1000

def fica_additional_medicare_single_threshold : ℚ := 200000

def fica_additional_medicare_joint_threshold : ℚ := 250000

/-- STATE_EFFECTIVE_RATES[2026] (= STATE_BASE_RATES) from tax_data.py;
`.get(state, 0.0)` is modelled by the final 0 default. -/
def STATE_EFFECTIVE_RATES (st : String) : ℚ :=
  if st = "AL" then 500/10000 else if st = "AK" then 0
  else if st = "AZ" then 250/10000 else if st = "AR" then 390/10000
  else if st = "CA" then 930/10000 else if st = "CO" then 440/10000
  else if st = "CT" then 500/10000 else if st = "DE" then 520/10000
  else if st = "FL" then 0 else if st = "GA" then 530/10000
  else if st = "HI" then 800/10000 else if st = "ID" then 580/10000
  else if st = "IL" then 495/10000 else if st = "IN" then 300/10000
  else if st = "IA" then 570/10000 else if st = "KS" then 520/10000
  else if st = "KY" then 450/10000 else if st = "LA" then 300/10000
  else if st = "ME" then 710/10000 else if st = "MD" then 575/10000
  else if st = "MA" then 500/10000 else if st = "MI" then 425/10000
  else if st = "MN" then 680/10000 else if st = "MS" then 470/10000
  else if st = "MO" then 470/10000 else if st = "MT" then 590/10000
  else if st = "NE" then 560/10000 else if st = "NV" then 0
  else if st = "NH" then 0 else if st = "NJ" then 630/10000
  else if st = "NM" then 490/10000 else if st = "NY" then 650/10000
  else if st = "NC" then 475/10000 else if st = "ND" then 250/10000
  else if st = "OH" then 350/10000 else if st = "OK" then 475/10000
  else if st = "OR" then 870/10000 else if st = "PA" then 307/10000
  else if st = "RI" then 550/10000 else if st = "SC" then 640/10000
  else if st = "SD" then 0 else if st = "TN" then 0
  else if st = "TX" then 0 else if st = "UT" then 480/10000
  else if st = "VT" then 660/10000 else if st = "VA" then 575/10000
  else if st = "WA" then 0 else if st = "WV" then 510/10000
  else if st = "WI" then 530/10000 else if st = "WY" then 0
  else if st = "DC" then 850/10000 else 0

/-! ## schema.py value objects used by the tax calculator -/

/-- ItemizedDeductions from schema.py. -/
structure ItemizedDeductions where
  salt_cap : ℚ
  mortgage_interest_deductible : Bool
  charitable_contributions : ℚ
  deriving Repr, DecidableEq

/-- TaxSettings from schema.py. -/
structure TaxSettings where
  use_current_brackets : Bool
  bracket_year : Int
  federal_effective_rate_override : Option ℚ
  state_effective_rate_override : Option ℚ
  capital_gains_rate_override : Option ℚ
  standard_deduction_override : Option ℚ
  itemized_deductions : ItemizedDeductions
  niit_enabled : Bool
  amt_enabled : Bool
  deriving Repr, DecidableEq

/-! ## tax.py -/

/-- YearIncomeSummary from tax.py. -/
structure YearIncomeSummary where
  year : Int
  filing_status : String
  state : String
  ordinary_income : ℚ
  capital_gains : ℚ
  qualified_dividends : ℚ := 0
  investment_income : ℚ := 0
  itemized_deductions : ℚ := 0
  withheld_tax : ℚ := 0
  early_withdrawal_penalty : ℚ := 0
  deriving Repr, DecidableEq

/-- TaxResult from tax.py. -/
structure TaxResult where
  federal_income_tax : ℚ
  capital_gains_tax : ℚ
  niit_tax : ℚ
  amt_tax : ℚ
  state_income_tax : ℚ
  early_withdrawal_penalty : ℚ
  total_tax : ℚ
  deduction_used : ℚ
  taxable_ordinary_income : ℚ
  deriving Repr, DecidableEq

/-- tax.py _year_factor. -/
def year_factor (year : Int) (inflation_rate : ℚ) : ℚ :=
  (1 + inflation_rate) ^ (max 0 (year - BASE_TAX_YEAR)).toNat

/-- tax.py _normalize_filing_status: membership in FEDERAL_BRACKETS[BASE_TAX_YEAR],
falling back to "single".  Note: the source returns "single" and does NOT raise. -/
def normalize_filing_status (filing_status : String) : String :=
  if filing_status ∈ federal_bracket_statuses then filing_status else "single"

/-- tax.py _adjusted_standard_deduction. -/
def adjusted_standard_deduction (filing_status : String) (year : Int) (inflation_rate : ℚ) : ℚ :=
  STANDARD_DEDUCTIONS (normalize_filing_status filing_status) * year_factor year inflation_rate

/-- tax.py _adjusted_brackets, specialised to a bracket table. -/
def adjusted_brackets (table : String → List Bracket) (filing_status : String)
    (year : Int) (inflation_rate : ℚ) : List Bracket :=
  let base := table (normalize_filing_status filing_status)
  let factor := year_factor year inflation_rate
  base.map (fun b => (b.1.map (· * factor), b.2))

/-- Loop body of tax.py _progressive_tax: carries (remaining, lower, tax). -/
def progressive_tax_go : ℚ → ℚ → ℚ → List Bracket → ℚ
  | _, _, tax, [] => tax
  | remaining, lower, tax, (upper, rate) :: rest =>
    if remaining ≤ 0 then tax
    else
      match upper with
      | none => tax + remaining * rate
      | some u =>
        let span := max 0 (u - lower)
        let taxable := min remaining span
        progressive_tax_go (remaining - taxable) u (tax + taxable * rate) rest

/-- tax.py _progressive_tax. -/
def progressive_tax (amount : ℚ) (brackets : List Bracket) : ℚ :=
  if amount ≤ 0 then 0 else max 0 (progressive_tax_go amount 0 0 brackets)

/-- tax.py compute_federal_income_tax. -/
def compute_federal_income_tax (taxable_income : ℚ) (filing_status : String)
    (year : Int) (inflation_rate : ℚ) : ℚ :=
  progressive_tax taxable_income (adjusted_brackets FEDERAL_BRACKETS filing_status year inflation_rate)

/-- Python `x or 0.0` on an optional first bracket bound, as used twice in tax.py
(`brackets[0][0] or 0.0`): None and 0.0 both collapse to 0. -/
def first_bracket_bound (brackets : List Bracket) : ℚ :=
  match brackets.head? with
  | some (some u, _) => u
  | _ => 0

/-- tax.py _capital_gains_zero_bracket_room. -/
def capital_gains_zero_bracket_room (ordinary_taxable_income : ℚ) (filing_status : String)
    (year : Int) (inflation_rate : ℚ) : ℚ :=
  let brackets := adjusted_brackets CAPITAL_GAINS_BRACKETS filing_status year inflation_rate
  max 0 (first_bracket_bound brackets - max 0 ordinary_taxable_income)

/-- Loop body of tax.py compute_capital_gains_tax over brackets[1:];
carries (remaining_gains, tax, lower) and returns (tax, remaining_gains). -/
def capital_gains_go (other_taxable_income : ℚ) : ℚ → ℚ → ℚ → List Bracket → ℚ × ℚ
  | remaining, tax, _, [] => (tax, remaining)
  | remaining, tax, lower, (upper, rate) :: rest =>
    if remaining ≤ 0 then (tax, remaining)
    else
      match upper with
      | none => capital_gains_go other_taxable_income 0 (tax + remaining * rate) lower rest
      | some u =>
        let effective_upper := max u other_taxable_income
        let effective_span := max 0 (effective_upper - max other_taxable_income lower)
        let taxable := min remaining effective_span
        capital_gains_go other_taxable_income (remaining - taxable) (tax + taxable * rate) u rest

/-- tax.py compute_capital_gains_tax. -/
def compute_capital_gains_tax (gains other_taxable_income : ℚ) (filing_status : String)
    (year : Int) (inflation_rate : ℚ) : ℚ :=
  if gains ≤ 0 then 0
  else
    let brackets := adjusted_brackets CAPITAL_GAINS_BRACKETS filing_status year inflation_rate
    let zero_room := capital_gains_zero_bracket_room other_taxable_income filing_status year inflation_rate
    let zero_bucket := min gains zero_room
    let remaining := gains - zero_bucket
    let lower := first_bracket_bound brackets
    let (tax, leftover) := capital_gains_go other_taxable_income remaining 0 lower brackets.tail
    max 0 (if leftover > 0 then tax + leftover * (20/100) else tax)

/-- tax.py compute_niit. -/
def compute_niit (investment_income agi : ℚ) (filing_status : String)
    (year : Int) (inflation_rate : ℚ) : ℚ :=
  if investment_income ≤ 0 then 0
  else
    let fs := normalize_filing_status filing_status
    let threshold := NIIT_THRESHOLDS fs * year_factor year inflation_rate
    let excess_agi := max 0 (agi - threshold)
    let taxable_base := min (max 0 investment_income) excess_agi
    taxable_base * (38/1000)

/-- tax.py compute_amt. -/
def compute_amt (income deductions : ℚ) (filing_status : String)
    (year : Int) (inflation_rate : ℚ) : ℚ :=
  let fs := normalize_filing_status filing_status
  let (exemption0, phaseout_start0) := AMT_EXEMPTIONS fs
  let factor := year_factor year inflation_rate
  let exemption := exemption0 * factor
  let phaseout_start := phaseout_start0 * factor
  let tentative_amt_income := max 0 (income - max 0 deductions)
  let exemption :=
    if tentative_amt_income > phaseout_start then
      max 0 (exemption - (25/100) * (tentative_amt_income - phaseout_start))
    else exemption
  let amt_taxable := max 0 (tentative_amt_income - exemption)
  progressive_tax amt_taxable AMT_BRACKETS

/-- tax.py compute_state_tax (flat effective rate by upper-cased state code). -/
def compute_state_tax (taxable_income : ℚ) (state : String) (_filing_status : String)
    (_year : Int) (_inflation_rate : ℚ) : ℚ :=
  max 0 taxable_income * STATE_EFFECTIVE_RATES state.toUpper

/-- tax.py compute_fica.  NOTE: the source signature is
`compute_fica(wages, ytd_wages, year, inflation_rate=...)` — it has no
filing-status parameter and always uses the single-filer Additional
Medicare threshold. -/
def compute_fica (wages ytd_wages : ℚ) (year : Int) (inflation_rate : ℚ) : ℚ :=
  if wages ≤ 0 then 0
  else
    let factor := year_factor year inflation_rate
    let ss_rate := fica_social_security_rate
    let ss_wage_base := fica_social_security_wage_base * factor
    let medicare_rate := fica_medicare_rate
    let additional_rate := fica_additional_medicare_rate
    let additional_threshold := fica_additional_medicare_single_threshold * factor
    let ss_taxable := max 0 (min wages (ss_wage_base - max 0 ytd_wages))
    let ss_tax := ss_taxable * ss_rate
    let medicare_tax := wages * medicare_rate
    let additional_taxable :=
      max 0 ((ytd_wages + wages) - additional_threshold) - max 0 (ytd_wages - additional_threshold)
    let additional_tax := max 0 additional_taxable * additional_rate
    ss_tax + medicare_tax + additional_tax

/-- tax.py compute_standard_vs_itemized. -/
def compute_standard_vs_itemized (filing_status : String) (year : Int)
    (itemized_details : ℚ) (standard_override : Option ℚ) (inflation_rate : ℚ) : ℚ :=
  let standard :=
    match standard_override with
    | some s => s
    | none => adjusted_standard_deduction filing_status year inflation_rate
  max 0 (max standard itemized_details)

/-- tax.py compute_total_tax.  The source contains no raise statement: an
unrecognized filing status is silently normalized to "single" by
_normalize_filing_status and a TaxResult is returned. -/
def compute_total_tax (summary : YearIncomeSummary) (tax_settings : TaxSettings)
    (inflation_rate : ℚ) : TaxResult :=
  let filing_status := normalize_filing_status summary.filing_status
  let ordinary_income := max 0 summary.ordinary_income
  let capital_gains := max 0 summary.capital_gains
  let qualified_dividends := max 0 summary.qualified_dividends
  let investment_income := max 0 summary.investment_income
  let deduction := compute_standard_vs_itemized filing_status summary.year
    summary.itemized_deductions tax_settings.standard_deduction_override inflation_rate
  let taxable_ordinary := max 0 (ordinary_income - deduction)
  let federal_tax :=
    match tax_settings.federal_effective_rate_override with
    | some r => taxable_ordinary * max 0 r
    | none => compute_federal_income_tax taxable_ordinary filing_status summary.year inflation_rate
  let gross_ltcg := capital_gains + qualified_dividends
  let cap_tax :=
    match tax_settings.capital_gains_rate_override with
    | some r => gross_ltcg * max 0 r
    | none => compute_capital_gains_tax gross_ltcg taxable_ordinary filing_status summary.year inflation_rate
  let agi := ordinary_income + gross_ltcg
  let niit_tax :=
    if tax_settings.niit_enabled then
      compute_niit (max investment_income gross_ltcg) agi filing_status summary.year inflation_rate
    else 0
  let amt_tax :=
    if tax_settings.amt_enabled then
      max 0 (compute_amt agi deduction filing_status summary.year inflation_rate - (federal_tax + cap_tax))
    else 0
  let state_tax :=
    match tax_settings.state_effective_rate_override with
    | some r => max 0 (taxable_ordinary * r)
    | none => compute_state_tax taxable_ordinary summary.state filing_status summary.year inflation_rate
  let total := federal_tax + cap_tax + niit_tax + amt_tax + state_tax + max 0 summary.early_withdrawal_penalty
  { federal_income_tax := max 0 federal_tax
    capital_gains_tax := max 0 cap_tax
    niit_tax := max 0 niit_tax
    amt_tax := max 0 amt_tax
    state_income_tax := max 0 state_tax
    early_withdrawal_penalty := max 0 summary.early_withdrawal_penalty
    total_tax := max 0 total
    deduction_used := max 0 deduction
    taxable_ordinary_income := max 0 taxable_ordinary }

/-! ## Python keyword-argument calling convention

In Python, calling a function with a keyword argument that is not among its
declared parameters raises TypeError.  We record the declared parameter list
of tax.py compute_fica and the keyword sets used at two call sites that pass
`filing_status`: the engine (engine.py, step 2/3 income withholding) and the
test suite (test_tax.py, test_engine_phase4.py). -/

/-- Declared parameters of tax.py compute_fica. -/
def compute_fica_params : List String := ["wages", "ytd_wages", "year", "inflation_rate"]

/-- Keyword arguments of the engine.py call to compute_fica (income withholding step). -/
def engine_fica_call_kwargs : List String :=
  ["wages", "ytd_wages", "year", "inflation_rate", "filing_status"]

/-- Keyword arguments of the test-suite calls compute_fica(wages, ytd, year, filing_status=...):
the three positional arguments bind wages/ytd_wages/year, leaving this keyword set. -/
def test_fica_call_kwargs : List String := ["filing_status"]

/-- A Python call raises TypeError unless every keyword argument is a declared
parameter (compute_fica takes no **kwargs). -/
def python_kw_call_ok (params kwargs : List String) : Bool :=
  kwargs.all (fun k => params.contains k)

/-! ## cost_basis.py -/

/-- CostBasisTracker from cost_basis.py. -/
structure CostBasisTracker where
  total_basis : ℚ
  deriving Repr, DecidableEq

/-- cost_basis.py CostBasisTracker.add_basis. -/
def CostBasisTracker.add_basis (t : CostBasisTracker) (amount : ℚ) : CostBasisTracker :=
  if amount ≤ 0 then t else { total_basis := t.total_basis + amount }

/-- cost_basis.py CostBasisTracker.withdraw: returns (updated tracker, realized gain). -/
def CostBasisTracker.withdraw (t : CostBasisTracker) (amount balance_before : ℚ) :
    CostBasisTracker × ℚ :=
  if amount ≤ 0 ∨ balance_before ≤ 0 then (t, 0)
  else
    let basis_ratio := min 1 (t.total_basis / balance_before)
    let basis_reduction := amount * basis_ratio
    ({ total_basis := max 0 (t.total_basis - basis_reduction) },
     max 0 (amount - basis_reduction))

/-! ## schema.py Account and WithdrawalStrategy -/

/-- Account from schema.py.  The `accounts` dict of the engine is modelled as a
`List Account` in insertion order; `find_account` is dict lookup by name. -/
structure Account where
  name : String
  type : String
  owner : String
  balance : ℚ
  cost_basis : Option ℚ
  growth_rate : ℚ
  dividend_yield : ℚ
  dividend_tax_treatment : String
  reinvest_dividends : Bool
  bond_allocation_percent : ℚ
  yearly_fees : ℚ
  allow_withdrawals : Bool
  deriving Repr, DecidableEq

/-- WithdrawalStrategy from schema.py. -/
structure WithdrawalStrategy where
  order : List String
  account_specific_order : List String
  use_account_specific : Bool
  rmd_satisfied_first : Bool
  deriving Repr, DecidableEq

/-- Lookup in the accounts dict (keys are account names). -/
def find_account (accounts : List Account) (name : String) : Option Account :=
  accounts.find? (fun a => a.name = name)

/-! ## withdrawals.py -/

/-- WithdrawalEvent from withdrawals.py. -/
structure WithdrawalEvent where
  account : String
  amount : ℚ
  realized_gain : ℚ
  deriving Repr, DecidableEq

/-- withdrawals.py _ordered_account_names. -/
def ordered_account_names (accounts : List Account) (strategy : WithdrawalStrategy) :
    List String :=
  if strategy.use_account_specific ∧ strategy.account_specific_order ≠ [] then
    strategy.account_specific_order.filter (fun n => (find_account accounts n).isSome)
  else
    let names := strategy.order.foldl
      (fun names account_type =>
        accounts.foldl
          (fun names account =>
            if account.type = account_type ∧ account.name ∉ names then
              names ++ [account.name]
            else names)
          names)
      []
    accounts.foldl
      (fun names account =>
        if account.name ∉ names then names ++ [account.name] else names)
      names

def PENALTY_AGE : ℚ := 595/10

def PENALTY_ACCOUNT_TYPES : List String := ["401k", "traditional_ira", "roth_ira"]

/-- withdrawals.py _is_penalty_eligible; `owner_ages.get(owner, 0.0)` is the
total function `owner_ages` (absent owners carry 0). -/
def is_penalty_eligible (account : Account) (owner_ages : String → ℚ) : Bool :=
  PENALTY_ACCOUNT_TYPES.contains account.type &&
    decide (owner_ages account.owner < PENALTY_AGE)

/-- The mutable state threaded through withdrawals.py _withdraw_from_accounts:
the shortfall still to fund, the balances dict, the per-account cost-basis
trackers, the shared events list, and the cumulative realized gains (the
per-pass sums of the source add up to this because both passes start from the
running total). -/
structure WithdrawState where
  shortfall : ℚ
  balances : String → ℚ
  cost_basis : String → Option CostBasisTracker
  events : List WithdrawalEvent
  realized_gains : ℚ

/-- The state update performed by the withdrawing iteration of the loop body
of withdrawals.py _withdraw_from_accounts (the branch past all the skip
guards): moves `amount = min(available, shortfall)` from the named account to
the cash account, realizes gains through the cost-basis tracker for taxable
brokerage accounts, and appends the event. -/
def wfa_event_state (cash_account_name name : String) (account : Account)
    (s : WithdrawState) : WithdrawState :=
  let available := max 0 (s.balances name)
  let amount := min available s.shortfall
  let balance_before := s.balances name
  let balances2 := fun n =>
    if n = cash_account_name then
      (if n = name then s.balances n - amount else s.balances n) + amount
    else
      (if n = name then s.balances n - amount else s.balances n)
  let step :=
    if account.type = "taxable_brokerage" then
      match s.cost_basis name with
      | some tracker =>
        ((fun n => if n = name then some (tracker.withdraw amount balance_before).1
                   else s.cost_basis n),
         (tracker.withdraw amount balance_before).2)
      | none => (s.cost_basis, (0 : ℚ))
    else (s.cost_basis, (0 : ℚ))
  { shortfall := s.shortfall - amount
    balances := balances2
    cost_basis := step.1
    events := s.events ++ [⟨name, amount, step.2⟩]
    realized_gains := s.realized_gains + step.2 }

/-- withdrawals.py _withdraw_from_accounts.  The `none` branch of the account
lookup cannot occur in the source (ordered names are keys of the dict); it is
modelled as a skip. -/
def withdraw_from_accounts (accounts : List Account) (cash_account_name : String)
    (skip_penalty : Bool) (owner_ages : String → ℚ) :
    List String → WithdrawState → WithdrawState
  | [], s => s
  | name :: rest, s =>
    if s.shortfall ≤ 0 then s
    else if name = cash_account_name then
      withdraw_from_accounts accounts cash_account_name skip_penalty owner_ages rest s
    else
      match find_account accounts name with
      | none => withdraw_from_accounts accounts cash_account_name skip_penalty owner_ages rest s
      | some account =>
        if ¬ account.allow_withdrawals then
          withdraw_from_accounts accounts cash_account_name skip_penalty owner_ages rest s
        else if skip_penalty && is_penalty_eligible account owner_ages then
          withdraw_from_accounts accounts cash_account_name skip_penalty owner_ages rest s
        else if max 0 (s.balances name) ≤ 0 then
          withdraw_from_accounts accounts cash_account_name skip_penalty owner_ages rest s
        else
          withdraw_from_accounts accounts cash_account_name skip_penalty owner_ages rest
            (wfa_event_state cash_account_name name account s)

/-- The amount moved by a withdrawing iteration on the named account. -/
def wfa_amount (name : String) (s : WithdrawState) : ℚ :=
  min (max 0 (s.balances name)) s.shortfall

theorem wfa_event_state_shortfall (cash name : String) (account : Account)
    (s : WithdrawState) :
    (wfa_event_state cash name account s).shortfall = s.shortfall - wfa_amount name s := rfl

theorem wfa_event_state_events (cash name : String) (account : Account)
    (s : WithdrawState) :
    ∃ g, (wfa_event_state cash name account s).events
      = s.events ++ [⟨name, wfa_amount name s, g⟩] :=
  ⟨_, rfl⟩

theorem wfa_event_state_balances_cash (cash name : String) (account : Account)
    (s : WithdrawState) (h : name ≠ cash) :
    (wfa_event_state cash name account s).balances cash
      = s.balances cash + wfa_amount name s := by
  have h2 : ¬ cash = name := fun hc => h hc.symm
  simp [wfa_event_state, wfa_amount, h2]

theorem wfa_event_state_balances_ne (cash name : String) (account : Account)
    (s : WithdrawState) (n : String) (hn : n ≠ cash) :
    (wfa_event_state cash name account s).balances n
      = if n = name then s.balances n - wfa_amount name s else s.balances n := by
  simp [wfa_event_state, wfa_amount, hn]

/-- Result of withdrawals.py cover_shortfall, with the in-place mutations of
the balances and cost-basis dicts made explicit. -/
structure CoverResult where
  remaining : ℚ
  events : List WithdrawalEvent
  realized_gains : ℚ
  balances : String → ℚ
  cost_basis : String → Option CostBasisTracker

/-- withdrawals.py cover_shortfall. -/
def cover_shortfall (shortfall : ℚ) (balances : String → ℚ) (accounts : List Account)
    (strategy : WithdrawalStrategy) (cash_account_name : String)
    (cost_basis : String → Option CostBasisTracker) (owner_ages : String → ℚ) :
    CoverResult :=
  if shortfall ≤ 0 then
    ⟨0, [], 0, balances, cost_basis⟩
  else
    let ordered_names := ordered_account_names accounts strategy
    let s1 := withdraw_from_accounts accounts cash_account_name true owner_ages ordered_names
      ⟨shortfall, balances, cost_basis, [], 0⟩
    let s2 :=
      if s1.shortfall > 0 then
        withdraw_from_accounts accounts cash_account_name false owner_ages ordered_names s1
      else s1
    ⟨max 0 s2.shortfall, s2.events, s2.realized_gains, s2.balances, s2.cost_basis⟩

/-- Total of the amounts of a list of withdrawal events. -/
def events_total (events : List WithdrawalEvent) : ℚ :=
  (events.map (fun e => e.amount)).sum

/-- Total of the amounts of the events drawn from one named account. -/
def events_total_for (name : String) (events : List WithdrawalEvent) : ℚ :=
  ((events.filter (fun e => e.account = name)).map (fun e => e.amount)).sum

theorem events_total_nil : events_total [] = 0 := rfl

theorem events_total_cons (e : WithdrawalEvent) (l : List WithdrawalEvent) :
    events_total (e :: l) = e.amount + events_total l := by
  simp [events_total]

theorem events_total_append (l₁ l₂ : List WithdrawalEvent) :
    events_total (l₁ ++ l₂) = events_total l₁ + events_total l₂ := by
  simp [events_total]

theorem events_total_for_nil (name : String) : events_total_for name [] = 0 := rfl

theorem events_total_for_cons (name : String) (e : WithdrawalEvent) (l : List WithdrawalEvent) :
    events_total_for name (e :: l) =
      (if e.account = name then e.amount else 0) + events_total_for name l := by
  by_cases h : e.account = name <;> simp [events_total_for, h]

theorem events_total_for_append (name : String) (l₁ l₂ : List WithdrawalEvent) :
    events_total_for name (l₁ ++ l₂) =
      events_total_for name l₁ + events_total_for name l₂ := by
  simp [events_total_for]

theorem events_total_for_nonneg (name : String) (l : List WithdrawalEvent)
    (h : ∀ e ∈ l, 0 < e.amount) : 0 ≤ events_total_for name l := by
  induction l with
  | nil => simp [events_total_for_nil]
  | cons e l ih =>
    rw [events_total_for_cons]
    have he := h e (by simp)
    have hl : 0 ≤ events_total_for name l := ih (fun e he => h e (by simp [he]))
    by_cases hacc : e.account = name <;> simp [hacc] <;> linarith

theorem events_total_nonneg (l : List WithdrawalEvent)
    (h : ∀ e ∈ l, 0 < e.amount) : 0 ≤ events_total l := by
  induction l with
  | nil => simp [events_total_nil]
  | cons e l ih =>
    rw [events_total_cons]
    have he := h e (by simp)
    have hl : 0 ≤ events_total l := ih (fun e he => h e (by simp [he]))
    linarith

theorem events_total_for_eq_zero (name : String) (l : List WithdrawalEvent)
    (h : ∀ e ∈ l, e.account ≠ name) : events_total_for name l = 0 := by
  induction l with
  | nil => rfl
  | cons e l ih =>
    rw [events_total_for_cons]
    have he := h e (by simp)
    rw [if_neg he, ih (fun e hm => h e (by simp [hm]))]
    ring

theorem amount_le_events_total_for (l : List WithdrawalEvent) (e : WithdrawalEvent)
    (hmem : e ∈ l) (hpos : ∀ f ∈ l, 0 < f.amount) :
    e.amount ≤ events_total_for e.account l := by
  induction l with
  | nil => cases hmem
  | cons f l ih =>
    rw [events_total_for_cons]
    rcases List.mem_cons.mp hmem with rfl | hmem2
    · rw [if_pos rfl]
      have : 0 ≤ events_total_for e.account l :=
        events_total_for_nonneg _ _ (fun g hg => hpos g (by simp [hg]))
      linarith
    · have hrec := ih hmem2 (fun g hg => hpos g (by simp [hg]))
      have hf := hpos f (by simp)
      by_cases hacc : f.account = e.account <;> simp [hacc] <;> linarith

/-- Invariant package for one pass of the withdrawal loop: the pass appends a
list `new` of events; the cash account gains exactly their total; every other
balance drops by exactly the total of its own events, by no more than its
available balance; every event is positive, from an allowed non-cash account
of the ordered list (non-penalized when the pass skips penalties); the
shortfall drops by the events total; and if the pass ends with shortfall
still positive, every ordered account it was allowed to draw from is down to
zero available balance. -/
def WfaSpec (accounts : List Account) (cash : String) (skip_penalty : Bool)
    (ages : String → ℚ) (ordered : List String) (s : WithdrawState) : Prop :=
  ∃ new : List WithdrawalEvent,
    (withdraw_from_accounts accounts cash skip_penalty ages ordered s).events
      = s.events ++ new ∧
    (withdraw_from_accounts accounts cash skip_penalty ages ordered s).balances cash
      = s.balances cash + events_total new ∧
    (∀ n, n ≠ cash →
      (withdraw_from_accounts accounts cash skip_penalty ages ordered s).balances n
        = s.balances n - events_total_for n new) ∧
    (∀ n, n ≠ cash → events_total_for n new ≤ max 0 (s.balances n)) ∧
    (∀ e ∈ new, 0 < e.amount ∧ e.account ≠ cash ∧ e.account ∈ ordered ∧
      ∃ a, find_account accounts e.account = some a ∧ a.allow_withdrawals = true ∧
        (skip_penalty = true → is_penalty_eligible a ages = false)) ∧
    (withdraw_from_accounts accounts cash skip_penalty ages ordered s).shortfall
      = s.shortfall - events_total new ∧
    (0 < (withdraw_from_accounts accounts cash skip_penalty ages ordered s).shortfall →
      ∀ name ∈ ordered, name ≠ cash →
        ∀ a, find_account accounts name = some a → a.allow_withdrawals = true →
          (skip_penalty = true → is_penalty_eligible a ages = false) →
          (withdraw_from_accounts accounts cash skip_penalty ages ordered s).balances name ≤ 0)

/-- Lifts the invariant package across a loop iteration that skips the head
account, given that the head either is the cash account or can be shown
exhausted (or excluded) for the drain clause. -/
theorem wfa_lift_skip (accounts : List Account) (cash : String) (skip_penalty : Bool)
    (ages : String → ℚ) (name : String) (rest : List String) (s : WithdrawState)
    (heq : withdraw_from_accounts accounts cash skip_penalty ages (name :: rest) s
         = withdraw_from_accounts accounts cash skip_penalty ages rest s)
    (hspec : WfaSpec accounts cash skip_penalty ages rest s)
    (hhead : name ≠ cash →
      ∀ a, find_account accounts name = some a → a.allow_withdrawals = true →
        (skip_penalty = true → is_penalty_eligible a ages = false) →
        (withdraw_from_accounts accounts cash skip_penalty ages rest s).balances name ≤ 0) :
    WfaSpec accounts cash skip_penalty ages (name :: rest) s := by
  obtain ⟨new, h1, h2, h3, h4, h5, h6, h7⟩ := hspec
  refine ⟨new, by rw [heq]; exact h1, by rw [heq]; exact h2,
    fun n hn => by rw [heq]; exact h3 n hn, h4,
    fun e he => ?_, by rw [heq]; exact h6, ?_⟩
  · obtain ⟨ha, hb, hc, hd⟩ := h5 e he
    exact ⟨ha, hb, List.mem_cons_of_mem _ hc, hd⟩
  · intro hsf n hmem hne a hfind hallow hpen
    rw [heq] at hsf ⊢
    rcases List.mem_cons.mp hmem with rfl | hmem2
    · exact hhead hne a hfind hallow hpen
    · exact h7 hsf n hmem2 hne a hfind hallow hpen

/-- The invariant package holds for every pass of the withdrawal loop. -/
theorem withdraw_from_accounts_spec (accounts : List Account) (cash : String)
    (skip_penalty : Bool) (ages : String → ℚ) (ordered : List String) (s : WithdrawState) :
    WfaSpec accounts cash skip_penalty ages ordered s := by
  induction ordered generalizing s with
  | nil =>
    refine ⟨[], by simp [withdraw_from_accounts], by simp [withdraw_from_accounts, events_total_nil],
      fun n _ => by simp [withdraw_from_accounts, events_total_for_nil],
      fun n _ => by simp [events_total_for_nil, le_max_left],
      fun e he => absurd he (List.not_mem_nil e),
      by simp [withdraw_from_accounts, events_total_nil],
      fun _ name hmem => absurd hmem (List.not_mem_nil name)⟩
  | cons name rest ih =>
    by_cases h1 : s.shortfall ≤ 0
    · have heq : withdraw_from_accounts accounts cash skip_penalty ages (name :: rest) s = s := by
        simp [withdraw_from_accounts, h1]
      refine ⟨[], by rw [heq]; simp, by rw [heq]; simp [events_total_nil],
        fun n _ => by rw [heq]; simp [events_total_for_nil],
        fun n _ => by simp [events_total_for_nil, le_max_left],
        fun e he => absurd he (List.not_mem_nil e),
        by rw [heq]; simp [events_total_nil],
        fun hsf => ?_⟩
      rw [heq] at hsf
      exact absurd hsf (not_lt.mpr h1)
    · by_cases h2 : name = cash
      · refine wfa_lift_skip accounts cash skip_penalty ages name rest s ?_ (ih s) ?_
        · simp [withdraw_from_accounts, h1, h2]
        · exact fun hne => absurd h2 hne
      · cases hfind : find_account accounts name with
        | none =>
          refine wfa_lift_skip accounts cash skip_penalty ages name rest s ?_ (ih s) ?_
          · simp [withdraw_from_accounts, h1, h2, hfind]
          · intro _ a hfa
            rw [hfind] at hfa
            cases hfa
        | some account =>
          by_cases h3 : account.allow_withdrawals = true
          · by_cases h4 : (skip_penalty && is_penalty_eligible account ages) = true
            · refine wfa_lift_skip accounts cash skip_penalty ages name rest s ?_ (ih s) ?_
              · simp [withdraw_from_accounts, h1, h2, hfind, h3, h4]
              · intro _ a hfa _ hpen
                rw [hfind] at hfa
                injection hfa with hfa
                subst hfa
                obtain ⟨hskip, helig⟩ : skip_penalty = true ∧
                    is_penalty_eligible account ages = true := by simpa using h4
                rw [hpen hskip] at helig
                cases helig
            · by_cases h5 : max 0 (s.balances name) ≤ 0
              · refine wfa_lift_skip accounts cash skip_penalty ages name rest s ?_ (ih s) ?_
                · simp [withdraw_from_accounts, h1, h2, hfind, h3, h4, h5]
                · intro hne _ _ _ _
                  obtain ⟨new, _, _, e3, _, e5, _, _⟩ := ih s
                  have hnn : 0 ≤ events_total_for name new :=
                    events_total_for_nonneg _ _ (fun e he => (e5 e he).1)
                  have hbal : s.balances name ≤ 0 := le_trans (le_max_right 0 _) h5
                  rw [e3 name hne]
                  linarith
              · -- withdrawing iteration
                have heq : withdraw_from_accounts accounts cash skip_penalty ages (name :: rest) s
                    = withdraw_from_accounts accounts cash skip_penalty ages rest
                        (wfa_event_state cash name account s) := by
                  simp [withdraw_from_accounts, h1, h2, hfind, h3, h4, h5]
                set s1 := wfa_event_state cash name account s with hs1
                obtain ⟨new2, e1, e2, e3, e4, e5, e6, e7⟩ := ih s1
                obtain ⟨g, hev⟩ := wfa_event_state_events cash name account s
                set A := wfa_amount name s with hA
                have hsfpos : 0 < s.shortfall := lt_of_not_le h1
                have hbalpos : 0 < s.balances name := by
                  by_contra hle
                  push_neg at hle
                  exact h5 (le_of_eq (max_eq_left hle))
                have hmax : max 0 (s.balances name) = s.balances name :=
                  max_eq_right (le_of_lt hbalpos)
                have hAdef : A = min (s.balances name) s.shortfall := by
                  rw [hA, wfa_amount, hmax]
                have hApos : 0 < A := by
                  rw [hAdef]
                  exact lt_min hbalpos hsfpos
                have hAleb : A ≤ s.balances name := by
                  rw [hAdef]; exact min_le_left _ _
                have hAles : A ≤ s.shortfall := by
                  rw [hAdef]; exact min_le_right _ _
                have hs1sf : s1.shortfall = s.shortfall - A :=
                  wfa_event_state_shortfall cash name account s
                have hs1cash : s1.balances cash = s.balances cash + A :=
                  wfa_event_state_balances_cash cash name account s h2
                have hs1bal : ∀ n, n ≠ cash →
                    s1.balances n = if n = name then s.balances n - A else s.balances n :=
                  fun n hn => wfa_event_state_balances_ne cash name account s n hn
                have hnn2 : ∀ n, 0 ≤ events_total_for n new2 :=
                  fun n => events_total_for_nonneg _ _ (fun e he => (e5 e he).1)
                have hpenA : skip_penalty = true → is_penalty_eligible account ages = false := by
                  intro hskip
                  cases helig : is_penalty_eligible account ages
                  · rfl
                  · exact absurd (by rw [hskip, helig]; rfl) h4
                refine ⟨⟨name, A, g⟩ :: new2, ?_, ?_, ?_, ?_, ?_, ?_, ?_⟩
                · rw [heq, e1, hev]
                  simp
                · rw [heq, e2, hs1cash, events_total_cons]
                  ring
                · intro n hn
                  rw [heq, e3 n hn, hs1bal n hn, events_total_for_cons]
                  by_cases hnm : n = name
                  · subst hnm
                    rw [if_pos rfl, if_pos rfl]
                    ring
                  · rw [if_neg hnm, if_neg (fun hc => hnm hc.symm)]
                    ring
                · intro n hn
                  rw [events_total_for_cons]
                  by_cases hnm : n = name
                  · subst hnm
                    rw [if_pos rfl]
                    have hb := e4 n hn
                    rw [hs1bal n hn, if_pos rfl] at hb
                    have hmax2 : max 0 (s.balances n - A) = s.balances n - A :=
                      max_eq_right (by linarith)
                    rw [hmax2] at hb
                    rw [hmax]
                    linarith
                  · rw [if_neg (fun hc => hnm hc.symm)]
                    have hb := e4 n hn
                    rw [hs1bal n hn, if_neg hnm] at hb
                    linarith
                · intro e he
                  rcases List.mem_cons.mp he with rfl | he2
                  · exact ⟨hApos, h2, List.mem_cons_self _ _,
                      account, hfind, h3, hpenA⟩
                  · obtain ⟨ha, hb, hc, hd⟩ := e5 e he2
                    exact ⟨ha, hb, List.mem_cons_of_mem _ hc, hd⟩
                · rw [heq, e6, hs1sf, events_total_cons]
                  ring
                · intro hsf n hmem hne a hfa hallow hpen
                  rw [heq] at hsf ⊢
                  rcases List.mem_cons.mp hmem with rfl | hmem2
                  · -- head account: it was either drained or it stopped the pass
                    rcases min_cases (s.balances n) s.shortfall with ⟨hm, _⟩ | ⟨hm, _⟩
                    · have hz : s1.balances n = 0 := by
                        rw [hs1bal n hne, if_pos rfl, hAdef, hm]
                        ring
                      rw [e3 n hne, hz]
                      have := hnn2 n
                      linarith
                    · -- the pass stopped: remaining shortfall would be nonpositive
                      have htot : 0 ≤ events_total new2 :=
                        events_total_nonneg _ (fun e he => (e5 e he).1)
                      have : (withdraw_from_accounts accounts cash skip_penalty ages rest s1).shortfall ≤ 0 := by
                        rw [e6, hs1sf, hAdef, hm]
                        linarith
                      exact absurd hsf (not_lt.mpr this)
                  · exact e7 hsf n hmem2 hne a hfa hallow hpen
          · refine wfa_lift_skip accounts cash skip_penalty ages name rest s ?_ (ih s) ?_
            · simp [withdraw_from_accounts, h1, h2, hfind, h3]
            · intro _ a hfa hallow _
              rw [hfind] at hfa
              injection hfa with hfa
              subst hfa
              exact absurd hallow h3

theorem waterfall_sum_bound (b t1 t2 : ℚ) (h1 : 0 ≤ t1) (h2 : 0 ≤ t2)
    (hb1 : t1 ≤ max 0 b) (hb2 : t2 ≤ max 0 (b - t1)) : t1 + t2 ≤ max 0 b := by
  rcases le_or_lt 0 b with hb | hb
  · rw [max_eq_right hb] at hb1 ⊢
    rcases le_or_lt 0 (b - t1) with hbt | hbt
    · rw [max_eq_right hbt] at hb2
      linarith
    · rw [max_eq_left (le_of_lt hbt)] at hb2
      linarith
  · rw [max_eq_left (le_of_lt hb)] at hb1 ⊢
    have ht1 : t1 = 0 := le_antisymm hb1 h1
    subst ht1
    rw [sub_zero, max_eq_left (le_of_lt hb)] at hb2
    linarith

theorem sub_le_of_le_max (b t : ℚ) (ht : t ≤ max 0 b) : min b 0 ≤ b - t := by
  rcases le_or_lt 0 b with hb | hb
  · rw [max_eq_right hb] at ht
    rw [min_eq_right hb]
    linarith
  · rw [max_eq_left (le_of_lt hb)] at ht
    rw [min_eq_left (le_of_lt hb)]
    linarith

/-- Two-pass composition of the invariant over cover_shortfall: the event list
splits into a non-penalized first pass and a penalty-eligible second pass, the
second pass fires only with every ordered non-penalized allowed account
exhausted, positive leftover shortfall means every ordered allowed account is
exhausted, and the balances move exactly by the event totals. -/
theorem cover_shortfall_spec (shortfall : ℚ) (bal : String → ℚ) (accounts : List Account)
    (strategy : WithdrawalStrategy) (cash : String)
    (cb : String → Option CostBasisTracker) (ages : String → ℚ) (hpos : 0 < shortfall) :
    ∃ new1 new2 : List WithdrawalEvent,
      (cover_shortfall shortfall bal accounts strategy cash cb ages).events = new1 ++ new2 ∧
      (∀ e ∈ new1, 0 < e.amount ∧ e.account ≠ cash ∧
        e.account ∈ ordered_account_names accounts strategy ∧
        ∃ a, find_account accounts e.account = some a ∧ a.allow_withdrawals = true ∧
          is_penalty_eligible a ages = false) ∧
      (∀ e ∈ new2, 0 < e.amount ∧ e.account ≠ cash ∧
        e.account ∈ ordered_account_names accounts strategy ∧
        ∃ a, find_account accounts e.account = some a ∧ a.allow_withdrawals = true ∧
          is_penalty_eligible a ages = true) ∧
      (new2 ≠ [] →
        ∀ n ∈ ordered_account_names accounts strategy, n ≠ cash →
          ∀ a, find_account accounts n = some a → a.allow_withdrawals = true →
            is_penalty_eligible a ages = false →
            (cover_shortfall shortfall bal accounts strategy cash cb ages).balances n ≤ 0) ∧
      (0 < (cover_shortfall shortfall bal accounts strategy cash cb ages).remaining →
        ∀ n ∈ ordered_account_names accounts strategy, n ≠ cash →
          ∀ a, find_account accounts n = some a → a.allow_withdrawals = true →
            (cover_shortfall shortfall bal accounts strategy cash cb ages).balances n ≤ 0) ∧
      (cover_shortfall shortfall bal accounts strategy cash cb ages).balances cash
        = bal cash + events_total (new1 ++ new2) ∧
      (∀ n, n ≠ cash →
        (cover_shortfall shortfall bal accounts strategy cash cb ages).balances n
          = bal n - events_total_for n (new1 ++ new2) ∧
        events_total_for n (new1 ++ new2) ≤ max 0 (bal n)) := by
  have hne : ¬ shortfall ≤ 0 := not_le.mpr hpos
  rw [cover_shortfall, if_neg hne]
  dsimp only
  set ordered := ordered_account_names accounts strategy with hord
  set s0 : WithdrawState := ⟨shortfall, bal, cb, [], 0⟩ with hs0
  obtain ⟨new1, p1, p2, p3, p4, p5, p6, p7⟩ :=
    withdraw_from_accounts_spec accounts cash true ages ordered s0
  set s1 := withdraw_from_accounts accounts cash true ages ordered s0 with hs1
  have hs0ev : s0.events = [] := rfl
  have hs0bal : s0.balances = bal := rfl
  have hs0sf : s0.shortfall = shortfall := rfl
  rw [hs0ev] at p1
  simp only [List.nil_append] at p1
  by_cases hrun2 : s1.shortfall > 0
  · rw [if_pos hrun2]
    obtain ⟨new2, q1, q2, q3, q4, q5, q6, q7⟩ :=
      withdraw_from_accounts_spec accounts cash false ages ordered s1
    set s2 := withdraw_from_accounts accounts cash false ages ordered s1 with hs2
    have hdrain1 : ∀ n ∈ ordered, n ≠ cash →
        ∀ a, find_account accounts n = some a → a.allow_withdrawals = true →
          is_penalty_eligible a ages = false → s1.balances n ≤ 0 := by
      intro n hmem hn a hfa hallow helig
      exact p7 hrun2 n hmem hn a hfa hallow (fun _ => helig)
    have hq2 : ∀ n, 0 ≤ events_total_for n new2 :=
      fun n => events_total_for_nonneg _ _ (fun e he => (q5 e he).1)
    have hp2 : ∀ n, 0 ≤ events_total_for n new1 :=
      fun n => events_total_for_nonneg _ _ (fun e he => (p5 e he).1)
    have hpass2pen : ∀ e ∈ new2, 0 < e.amount ∧ e.account ≠ cash ∧ e.account ∈ ordered ∧
        ∃ a, find_account accounts e.account = some a ∧ a.allow_withdrawals = true ∧
          is_penalty_eligible a ages = true := by
      intro e he
      obtain ⟨hamt, hnc, hmem, a, hfa, hallow, _⟩ := q5 e he
      refine ⟨hamt, hnc, hmem, a, hfa, hallow, ?_⟩
      cases helig : is_penalty_eligible a ages
      · exfalso
        have hbal1 : s1.balances e.account ≤ 0 :=
          hdrain1 e.account hmem hnc a hfa hallow helig
        have hb := q4 e.account hnc
        have hle : events_total_for e.account new2 ≤ 0 := by
          rw [max_eq_left hbal1] at hb
          exact hb
        have hge : e.amount ≤ events_total_for e.account new2 :=
          amount_le_events_total_for new2 e he (fun f hf => (q5 f hf).1)
        linarith
      · rfl
    refine ⟨new1, new2, ?_, ?_, hpass2pen, ?_, ?_, ?_, ?_⟩
    · rw [q1, p1]
    · intro e he
      obtain ⟨hamt, hnc, hmem, a, hfa, hallow, hpen⟩ := p5 e he
      exact ⟨hamt, hnc, hmem, a, hfa, hallow, hpen rfl⟩
    · intro _ n hmem hn a hfa hallow helig
      have hbal1 : s1.balances n ≤ 0 := hdrain1 n hmem hn a hfa hallow helig
      have := hq2 n
      rw [q3 n hn]
      linarith
    · intro hrem n hmem hn a hfa hallow
      have hsf2 : 0 < s2.shortfall := by
        by_contra hle
        push_neg at hle
        rw [max_eq_left hle] at hrem
        exact absurd hrem (lt_irrefl 0)
      exact q7 hsf2 n hmem hn a hfa hallow (fun hff => absurd hff (by simp))
    · rw [q2, p2, hs0bal, events_total_append]
      ring
    · intro n hn
      have hbal := q3 n hn
      have hbal1 := p3 n hn
      rw [hs0bal] at hbal1 p4
      constructor
      · rw [hbal, hbal1, events_total_for_append]
        ring
      · rw [events_total_for_append]
        refine waterfall_sum_bound (bal n) _ _ (hp2 n) (hq2 n) (p4 n hn) ?_
        have := q4 n hn
        rw [hbal1] at this
        exact this
  · rw [if_neg hrun2]
    refine ⟨new1, [], by rw [p1, List.append_nil], ?_,
      fun e he => absurd he (List.not_mem_nil e),
      fun hne2 => absurd rfl hne2, ?_, ?_, ?_⟩
    · intro e he
      obtain ⟨hamt, hnc, hmem, a, hfa, hallow, hpen⟩ := p5 e he
      exact ⟨hamt, hnc, hmem, a, hfa, hallow, hpen rfl⟩
    · intro hrem
      push_neg at hrun2
      rw [max_eq_left hrun2] at hrem
      exact absurd hrem (lt_irrefl 0)
    · rw [p2, hs0bal, List.append_nil]
    · intro n hn
      rw [List.append_nil]
      have := p3 n hn
      rw [hs0bal] at this p4
      exact ⟨this, p4 n hn⟩

/-! ## Concrete scenarios for the withdrawal claims (mirroring test_withdrawals.py) -/

def acct_cash : Account :=
  ⟨"Cash", "cash", "primary", 0, none, 0, 0, "plan_settings", true, 0, 0, true⟩

def acct_brokerage : Account :=
  ⟨"Brokerage", "taxable_brokerage", "primary", 0, some 0, 0, 0, "plan_settings", true, 0, 0, true⟩

def acct_ira : Account :=
  ⟨"IRA", "traditional_ira", "primary", 0, none, 0, 0, "plan_settings", true, 0, 0, true⟩

def wit_accounts : List Account := [acct_cash, acct_ira, acct_brokerage]

def wit_strategy : WithdrawalStrategy := ⟨[], ["IRA", "Brokerage", "Cash"], true, false⟩

def wit_bal : String → ℚ := fun n =>
  if n = "Cash" then 0 else if n = "IRA" then 50000 else if n = "Brokerage" then 50000 else 0

def wit_cb : String → Option CostBasisTracker := fun n =>
  if n = "Brokerage" then some ⟨50000⟩ else none

def wit_ages : String → ℚ := fun _ => 50

/-- An account-specific order that omits the brokerage account entirely. -/
def cex_strategy : WithdrawalStrategy := ⟨[], ["IRA"], true, false⟩

def cex_bal : String → ℚ := fun n =>
  if n = "Cash" then 0 else if n = "IRA" then 100 else if n = "Brokerage" then 100 else 0

/-- Claim C2 counterexample: with shortfall 50, owner age 50 and an
account-specific order listing only the IRA, cover_shortfall withdraws 50
from the penalty-eligible IRA while the non-penalized, withdrawal-allowed
brokerage account still holds its full positive balance of 100 — so
penalty-eligible accounts are NOT touched only after all non-penalized
withdrawal-allowed accounts are drained, when the configured order omits
an account. -/
theorem cover_shortfall_order_subset_counterexample :
    (cover_shortfall 50 cex_bal wit_accounts cex_strategy "Cash" wit_cb wit_ages).events
      = [⟨"IRA", 50, 0⟩] ∧
    is_penalty_eligible acct_ira wit_ages = true ∧
    find_account wit_accounts "Brokerage" = some acct_brokerage ∧
    acct_brokerage.allow_withdrawals = true ∧
    is_penalty_eligible acct_brokerage wit_ages = false ∧
    (cover_shortfall 50 cex_bal wit_accounts cex_strategy "Cash" wit_cb wit_ages).balances "Brokerage" = 100 ∧
    (0 : ℚ) < 100 := by
  refine ⟨?_, ?_, ?_, ?_, ?_, ?_, ?_⟩
  all_goals try simp [cover_shortfall, ordered_account_names, withdraw_from_accounts,
    wfa_event_state, find_account, is_penalty_eligible, PENALTY_ACCOUNT_TYPES, PENALTY_AGE,
    cex_strategy, cex_bal, wit_accounts, wit_cb, wit_ages,
    acct_cash, acct_ira, acct_brokerage, CostBasisTracker.withdraw]
  all_goals try norm_num [cex_bal, wit_cb, wit_ages]
  all_goals try simp
  all_goals try norm_num
  all_goals try simp

/-- Claim C2 (amended): for every cover_shortfall call with shortfall > 0, the
event list splits at an index k into a first phase whose events all come from
non-penalty-eligible withdrawal-allowed accounts and a second phase whose
events all come from penalty-eligible ones; if the second phase is nonempty
then every non-penalty-eligible withdrawal-allowed account APPEARING IN THE
CONFIGURED WITHDRAWAL ORDER is drained to zero available balance (their
balances are not touched by the second pass, so this also holds at the moment
of every penalty-eligible withdrawal); and the returned remaining shortfall is
positive only once every withdrawal-allowed account appearing in the
configured order (penalty-eligible ones included, as last resort) has zero
available balance.  Accounts omitted from an account-specific order are never
touched, so the guarantee ranges over the ordered list, not over all
accounts. -/
theorem cover_shortfall_penalty_last_resort
    (shortfall : ℚ) (bal : String → ℚ) (accounts : List Account)
    (strategy : WithdrawalStrategy) (cash : String)
    (cb : String → Option CostBasisTracker) (ages : String → ℚ) (hpos : 0 < shortfall) :
    (∃ k : ℕ,
      (∀ e ∈ (cover_shortfall shortfall bal accounts strategy cash cb ages).events.take k,
        ∃ a, find_account accounts e.account = some a ∧ a.allow_withdrawals = true ∧
          is_penalty_eligible a ages = false) ∧
      (∀ e ∈ (cover_shortfall shortfall bal accounts strategy cash cb ages).events.drop k,
        ∃ a, find_account accounts e.account = some a ∧ a.allow_withdrawals = true ∧
          is_penalty_eligible a ages = true) ∧
      ((cover_shortfall shortfall bal accounts strategy cash cb ages).events.drop k ≠ [] →
        ∀ n ∈ ordered_account_names accounts strategy, n ≠ cash →
          ∀ a, find_account accounts n = some a → a.allow_withdrawals = true →
            is_penalty_eligible a ages = false →
            (cover_shortfall shortfall bal accounts strategy cash cb ages).balances n ≤ 0)) ∧
    (0 < (cover_shortfall shortfall bal accounts strategy cash cb ages).remaining →
      ∀ n ∈ ordered_account_names accounts strategy, n ≠ cash →
        ∀ a, find_account accounts n = some a → a.allow_withdrawals = true →
          (cover_shortfall shortfall bal accounts strategy cash cb ages).balances n ≤ 0) := by
  obtain ⟨new1, new2, hev, hp1, hp2, hdrained, hrem, _, _⟩ :=
    cover_shortfall_spec shortfall bal accounts strategy cash cb ages hpos
  refine ⟨⟨new1.length, ?_, ?_, ?_⟩, hrem⟩
  · intro e he
    rw [hev, List.take_left] at he
    obtain ⟨_, _, _, a, hfa, hallow, helig⟩ := hp1 e he
    exact ⟨a, hfa, hallow, helig⟩
  · intro e he
    rw [hev, List.drop_left] at he
    obtain ⟨_, _, _, a, hfa, hallow, helig⟩ := hp2 e he
    exact ⟨a, hfa, hallow, helig⟩
  · intro hne2
    rw [hev, List.drop_left] at hne2
    exact hdrained hne2

/-- Witness for the amended claim C2 at the concrete scenario of
test_withdrawals.py: shortfall 10000 against Cash 0 / IRA 50000 /
Brokerage 50000 and owner age 50. -/
theorem cover_shortfall_penalty_last_resort_witness :
    0 < (10000 : ℚ) ∧
    (0 < (cover_shortfall 10000 wit_bal wit_accounts wit_strategy "Cash" wit_cb wit_ages).remaining →
      ∀ n ∈ ordered_account_names wit_accounts wit_strategy, n ≠ "Cash" →
        ∀ a, find_account wit_accounts n = some a → a.allow_withdrawals = true →
          (cover_shortfall 10000 wit_bal wit_accounts wit_strategy "Cash" wit_cb wit_ages).balances n ≤ 0) :=
  ⟨by norm_num,
   (cover_shortfall_penalty_last_resort 10000 wit_bal wit_accounts wit_strategy "Cash"
     wit_cb wit_ages (by norm_num)).2⟩

/-- Claim C10: every cover_shortfall call conserves balances: the cash account
gains exactly the total of the returned event amounts; every event amount is
positive; every non-cash balance drops exactly by the total of its own events,
which never exceeds the available balance of the account (so no source account
is driven below zero); and any non-cash account producing no event keeps its
balance unchanged. -/
theorem cover_shortfall_conserves_balances
    (shortfall : ℚ) (bal : String → ℚ) (accounts : List Account)
    (strategy : WithdrawalStrategy) (cash : String)
    (cb : String → Option CostBasisTracker) (ages : String → ℚ) :
    (cover_shortfall shortfall bal accounts strategy cash cb ages).balances cash
      = bal cash + events_total (cover_shortfall shortfall bal accounts strategy cash cb ages).events ∧
    (∀ e ∈ (cover_shortfall shortfall bal accounts strategy cash cb ages).events, 0 < e.amount) ∧
    (∀ n, n ≠ cash →
      (cover_shortfall shortfall bal accounts strategy cash cb ages).balances n
        = bal n - events_total_for n (cover_shortfall shortfall bal accounts strategy cash cb ages).events ∧
      events_total_for n (cover_shortfall shortfall bal accounts strategy cash cb ages).events
        ≤ max 0 (bal n) ∧
      min (bal n) 0 ≤ (cover_shortfall shortfall bal accounts strategy cash cb ages).balances n) ∧
    (∀ n, n ≠ cash →
      (∀ e ∈ (cover_shortfall shortfall bal accounts strategy cash cb ages).events, e.account ≠ n) →
      (cover_shortfall shortfall bal accounts strategy cash cb ages).balances n = bal n) := by
  by_cases hpos : 0 < shortfall
  · obtain ⟨new1, new2, hev, hp1, hp2, _, _, hcash, hbal⟩ :=
      cover_shortfall_spec shortfall bal accounts strategy cash cb ages hpos
    have hposall : ∀ e ∈ (cover_shortfall shortfall bal accounts strategy cash cb ages).events,
        0 < e.amount := by
      intro e he
      rw [hev] at he
      rcases List.mem_append.mp he with h | h
      · exact (hp1 e h).1
      · exact (hp2 e h).1
    refine ⟨by rw [hev]; exact hcash, hposall, ?_, ?_⟩
    · intro n hn
      obtain ⟨heq, hle⟩ := hbal n hn
      refine ⟨by rw [hev]; exact heq, by rw [hev]; exact hle, ?_⟩
      rw [heq]
      exact sub_le_of_le_max (bal n) _ hle
    · intro n hn hnone
      obtain ⟨heq, _⟩ := hbal n hn
      have hz : events_total_for n (new1 ++ new2) = 0 := by
        apply events_total_for_eq_zero
        intro e he
        exact hnone e (by rw [hev]; exact he)
      rw [heq, hz, sub_zero]
  · push_neg at hpos
    rw [cover_shortfall, if_pos hpos]
    refine ⟨?_, ?_, ?_, ?_⟩
    · simp [events_total_nil]
    · intro e he
      exact absurd he (List.not_mem_nil e)
    · intro n _
      exact ⟨by simp [events_total_for_nil], by simp [events_total_for_nil, le_max_left],
        min_le_left _ _⟩
    · intro n _ _
      rfl

/-! ## Claim C3: cost-basis tracker -/

/-- Claim C3: for every tracker state with total_basis ≥ 0 and every withdraw
call with amount > 0 and balance_before > 0, with basisRatio =
min(1, totalBasis/balanceBefore): the realized gain is exactly
amount × (1 − basisRatio), the new total basis is totalBasis − amount ×
basisRatio floored at 0, and total_basis stays ≥ 0 after withdraw and after
every add_basis. -/
theorem cost_basis_withdraw_spec (t : CostBasisTracker) (amount balance_before : ℚ)
    (hb : 0 ≤ t.total_basis) (ha : 0 < amount) (hbb : 0 < balance_before) :
    (t.withdraw amount balance_before).2
      = amount * (1 - min 1 (t.total_basis / balance_before)) ∧
    (t.withdraw amount balance_before).1.total_basis
      = max 0 (t.total_basis - amount * min 1 (t.total_basis / balance_before)) ∧
    0 ≤ (t.withdraw amount balance_before).1.total_basis ∧
    (∀ x, 0 ≤ (t.add_basis x).total_basis) := by
  have hcond : ¬ (amount ≤ 0 ∨ balance_before ≤ 0) := by
    push_neg
    exact ⟨ha, hbb⟩
  have hratio_le : min 1 (t.total_basis / balance_before) ≤ 1 := min_le_left _ _
  have hgain_nonneg : 0 ≤ amount - amount * min 1 (t.total_basis / balance_before) := by
    nlinarith
  refine ⟨?_, ?_, ?_, ?_⟩
  · rw [CostBasisTracker.withdraw, if_neg hcond]
    dsimp only
    rw [max_eq_right hgain_nonneg]
    ring
  · rw [CostBasisTracker.withdraw, if_neg hcond]
  · rw [CostBasisTracker.withdraw, if_neg hcond]
    exact le_max_left 0 _
  · intro x
    rw [CostBasisTracker.add_basis]
    by_cases hx : x ≤ 0
    · rw [if_pos hx]
      exact hb
    · rw [if_neg hx]
      push_neg at hx
      dsimp only
      linarith

/-- Witness for claim C3 at the inputs of test_withdrawals.py (basis 3000,
withdraw 10000 from balance 50000: gain 9400). -/
theorem cost_basis_withdraw_spec_witness :
    0 ≤ (⟨3000⟩ : CostBasisTracker).total_basis ∧ 0 < (10000 : ℚ) ∧ 0 < (50000 : ℚ) ∧
    ((⟨3000⟩ : CostBasisTracker).withdraw 10000 50000).2
      = 10000 * (1 - min 1 ((⟨3000⟩ : CostBasisTracker).total_basis / 50000)) :=
  ⟨by norm_num, by norm_num, by norm_num,
   (cost_basis_withdraw_spec ⟨3000⟩ 10000 50000 (by norm_num) (by norm_num) (by norm_num)).1⟩

/-! ## Claims C4, C5, C1: FICA signature bug, filing-status normalization,
engine failure semantics -/

/-- Claim C4 (code-bug evidence): tax.py compute_fica declares only
(wages, ytd_wages, year, inflation_rate), so the engine.py and test-suite
calls that pass filing_status= raise TypeError; and the computation always
applies the single-filer Additional Medicare threshold of 200000: at the
test input wages=300000, ytd=0, year=2026 it returns 16689 (= 184500×6.2% +
300000×1.45% + 100000×0.9%), whereas the joint threshold of 250000 the test
test_fica_additional_medicare_uses_joint_threshold demands would give
16239. -/
theorem compute_fica_ignores_filing_status :
    python_kw_call_ok compute_fica_params test_fica_call_kwargs = false ∧
    python_kw_call_ok compute_fica_params engine_fica_call_kwargs = false ∧
    compute_fica 300000 0 2026 DEFAULT_BRACKET_INFLATION = 16689 ∧
    (184500 : ℚ) * fica_social_security_rate + 300000 * fica_medicare_rate
        + (300000 - fica_additional_medicare_joint_threshold) * fica_additional_medicare_rate
      = 16239 ∧
    (16689 : ℚ) ≠ 16239 := by
  refine ⟨by decide, by decide, ?_, ?_, by norm_num⟩
  · norm_num [compute_fica, year_factor, BASE_TAX_YEAR, fica_social_security_rate,
      fica_social_security_wage_base, fica_medicare_rate, fica_additional_medicare_rate,
      fica_additional_medicare_single_threshold]
  · norm_num [fica_social_security_rate, fica_medicare_rate,
      fica_additional_medicare_rate, fica_additional_medicare_joint_threshold]

/-- TaxSettings as built by _default_tax_settings in test_tax.py. -/
def default_tax_settings : TaxSettings :=
  ⟨true, 2026, none, none, none, none, ⟨10000, true, 0⟩, true, true⟩

/-- The YearIncomeSummary of test_invalid_filing_status_raises. -/
def bad_status_summary : YearIncomeSummary :=
  ⟨2026, "bad_status", "CA", 10000, 0, 0, 0, 0, 0, 0⟩

/-- The same summary with a single filer. -/
def single_status_summary : YearIncomeSummary :=
  ⟨2026, "single", "CA", 10000, 0, 0, 0, 0, 0, 0⟩

/-- Claim C5 (code-bug evidence): the tax calculator does NOT raise on an
unrecognized filing status: _normalize_filing_status silently maps it to
"single" and compute_total_tax returns the same TaxResult as for a single
filer.  The repository test test_invalid_filing_status_raises expects a
ValueError "unsupported filing_status" on exactly this input. -/
theorem compute_total_tax_normalizes_unknown_status :
    normalize_filing_status "bad_status" = "single" ∧
    compute_total_tax bad_status_summary default_tax_settings DEFAULT_BRACKET_INFLATION
      = compute_total_tax single_status_summary default_tax_settings DEFAULT_BRACKET_INFLATION := by
  constructor
  · decide
  · simp [compute_total_tax, bad_status_summary, single_status_summary,
      normalize_filing_status, federal_bracket_statuses, compute_standard_vs_itemized,
      adjusted_standard_deduction]

/-- Income from schema.py (the fields the engine income step reads). -/
structure Income where
  name : String
  owner : String
  amount : ℚ
  frequency : String
  start_date : String
  end_date : String
  change_over_time : String
  change_rate : Option ℚ
  tax_handling : String
  withhold_percent : Option ℚ
  deriving Repr, DecidableEq

/-- engine.py _pick_cash_account: first account of type cash, or the
ValueError "at least one cash account is required". -/
def pick_cash_account (accounts : List Account) : Except String String :=
  match accounts.find? (fun a => a.type = "cash") with
  | some a => Except.ok a.name
  | none => Except.error "at least one cash account is required"

/-- Guard of the engine withholding branch (engine.py steps 3-4):
`income.tax_handling == "withhold" and income.withhold_percent is not None`. -/
def income_withholds_fica (income : Income) : Bool :=
  income.tax_handling = "withhold" && income.withhold_percent.isSome

/-- The salary item used by the run_deterministic tests (test_engine_phase4.py):
annual 100000, tax_handling "withhold", withhold_percent 0. -/
def fail_income : Income :=
  ⟨"Salary", "primary", 100000, "annual", "start", "end", "fixed", none, "withhold", some 0⟩

/-- Claim C1 (code-bug evidence): a plan with a cash account and one
withholding income item still makes run_deterministic raise, because its
income step calls compute_fica with a filing_status keyword that tax.py
compute_fica does not declare (TypeError).  So the engine does not raise
exactly when the plan lacks a cash account.  _pick_cash_account itself does
error precisely on account lists without a cash account. -/
theorem run_deterministic_raises_despite_cash_account :
    pick_cash_account wit_accounts = Except.ok "Cash" ∧
    income_withholds_fica fail_income = true ∧
    python_kw_call_ok compute_fica_params engine_fica_call_kwargs = false ∧
    (∀ accounts : List Account,
      pick_cash_account accounts = Except.error "at least one cash account is required"
        ↔ accounts.find? (fun a => a.type = "cash") = none) := by
  refine ⟨by rfl, by decide, by decide, ?_⟩
  intro accounts
  rw [pick_cash_account]
  cases h : accounts.find? (fun a => a.type = "cash") with
  | none => simp
  | some a => simp

/-! ## Character-level models of the Python string operations used by roth.py
(str.strip, str.replace("%",""), str.split, int()/float() parsing).  The
stdlib String methods do not reduce in the kernel, so the embedding works on
`String.data` with structural recursion; the parsers are faithful for the
plain decimal literals and YYYY-MM dates plans contain. -/

def is_ascii_space (c : Char) : Bool :=
  c = ' ' ∨ c = '\t' ∨ c = '\n' ∨ c = '\r'

/-- Python str.strip() on a character list. -/
def trim_chars (l : List Char) : List Char :=
  ((l.dropWhile is_ascii_space).reverse.dropWhile is_ascii_space).reverse

/-- Python str.replace("%", "") on a character list. -/
def remove_percent (l : List Char) : List Char :=
  l.filter (fun c => c ≠ '%')

/-- Python str.split(sep) for a one-character separator. -/
def split_on_char (sep : Char) : List Char → List (List Char)
  | [] => [[]]
  | c :: rest =>
    let r := split_on_char sep rest
    if c = sep then [] :: r
    else
      match r with
      | [] => [[c]]
      | h :: t => (c :: h) :: t

def digit_val (c : Char) : Option Nat :=
  if c.isDigit then some (c.toNat - 48) else none

/-- Python int() on a nonempty digit string. -/
def parse_nat (l : List Char) : Option Nat :=
  if l = [] then none
  else l.foldl (fun acc c => acc.bind (fun n => (digit_val c).map (fun d => n * 10 + d))) (some 0)

/-- Python float() restricted to plain decimal literals ("22", "22.5"). -/
def parse_decimal_chars (l : List Char) : Option ℚ :=
  match split_on_char '.' l with
  | [w] => (parse_nat w).map (fun n => (n : ℚ))
  | [w, f] =>
    match parse_nat w, parse_nat f with
    | some wn, some fn => some ((wn : ℚ) + (fn : ℚ) / (10 : ℚ) ^ f.length)
    | _, _ => none
  | _ => none

/-! ## roth.py -/

/-- RothConversion from schema.py. -/
structure RothConversion where
  name : String
  from_account : String
  to_account : String
  annual_amount : Option ℚ
  start_date : String
  end_date : String
  fill_to_bracket : Option String
  deriving Repr, DecidableEq

/-- Python truthiness of conversion.fill_to_bracket (None and "" are falsy). -/
def roth_fill_truthy : Option String → Bool
  | none => false
  | some s => decide (s.data ≠ [])

/-- roth.py _parse_bracket_rate. -/
def parse_bracket_rate (fill_to_bracket : Option String) : Option ℚ :=
  match fill_to_bracket with
  | none => none
  | some s =>
    if s.data = [] then none
    else
      let raw := remove_percent (trim_chars s.data)
      if raw = [] then none
      else (parse_decimal_chars raw).map (fun x => x / 100)

/-- Loop of roth.py _bracket_upper_bound over the federal bracket rows. -/
def bracket_upper_bound_go (factor marginal_rate : ℚ) : List Bracket → Option ℚ
  | [] => none
  | (upper, rate) :: rest =>
    if abs (rate - marginal_rate) < 1 / 1000000000 then
      match upper with
      | none => none
      | some u => some (u * factor)
    else bracket_upper_bound_go factor marginal_rate rest

/-- roth.py _bracket_upper_bound (roth.py re-declares the same _year_factor
as tax.py). -/
def bracket_upper_bound (filing_status : String) (year : Int) (inflation_rate : ℚ)
    (marginal_rate : ℚ) : Option ℚ :=
  let status := if filing_status ∈ federal_bracket_statuses then filing_status else "single"
  bracket_upper_bound_go (year_factor year inflation_rate) marginal_rate
    (FEDERAL_BRACKETS status)

/-- roth.py _date_index via the YYYY-MM parse; malformed dates (an unhandled
ValueError in the source, unreachable for validated plans) yield none. -/
def parse_ym (value : String) : Option (Int × Int) :=
  match split_on_char '-' value.data with
  | [y, m] =>
    match parse_nat y, parse_nat m with
    | some yn, some mn => some ((yn : Int), (mn : Int))
    | _, _ => none
  | _ => none

def roth_date_index (value plan_start plan_end : String) : Option Int :=
  let v := if value = "start" then plan_start else if value = "end" then plan_end else value
  (parse_ym v).map (fun p => p.1 * 12 + p.2)

/-- roth.py _active. -/
def roth_active (conversion : RothConversion) (current_index : Int)
    (plan_start plan_end : String) : Bool :=
  match roth_date_index conversion.start_date plan_start plan_end,
        roth_date_index conversion.end_date plan_start plan_end with
  | some s, some e => decide (s ≤ current_index) && decide (current_index ≤ e)
  | _, _ => false

/-- The running state of roth.py execute_roth_conversions: the balances dict
plus the three accumulators (total converted, ordinary income added, and the
projected year-to-date ordinary income including conversions already applied
in this same call). -/
structure RothState where
  balances : String → ℚ
  total_converted : ℚ
  ordinary_income_added : ℚ
  projected_ordinary_income : ℚ

/-- One iteration of the conversion loop of roth.py execute_roth_conversions.
Every `continue` of the source that skips a conversion leaves the state
unchanged, which coincides with computing amount = 0. -/
def roth_step (current_year : Int) (current_month : Int) (current_index : Int)
    (plan_start plan_end filing_status : String) (inflation_rate : ℚ)
    (st : RothState) (conversion : RothConversion) : RothState :=
  if ¬ roth_active conversion current_index plan_start plan_end then st
  else
    let source_balance := max 0 (st.balances conversion.from_account)
    if source_balance ≤ 0 then st
    else
      let amount : ℚ :=
        if roth_fill_truthy conversion.fill_to_bracket then
          -- Fill-to-bracket executes as a December lump sum.
          if current_month ≠ 12 then 0
          else
            match parse_bracket_rate conversion.fill_to_bracket with
            | none => 0
            | some rate =>
              match bracket_upper_bound filing_status current_year inflation_rate rate with
              | none => 0
              | some upper => min source_balance (max 0 (upper - st.projected_ordinary_income))
        else
          match conversion.annual_amount with
          | some annual => min source_balance (max 0 (annual / 12))
          | none => 0
      if amount ≤ 0 then st
      else
        { balances := fun n =>
            if n = conversion.to_account then
              (if n = conversion.from_account then st.balances n - amount else st.balances n) + amount
            else
              (if n = conversion.from_account then st.balances n - amount else st.balances n)
          total_converted := st.total_converted + amount
          ordinary_income_added := st.ordinary_income_added + amount
          projected_ordinary_income := st.projected_ordinary_income + amount }

/-- roth.py execute_roth_conversions; the returned state carries
(total_converted, ordinary_income_added) and the mutated balances. -/
def execute_roth_conversions (conversions : List RothConversion) (balances : String → ℚ)
    (current_year current_month current_index : Int)
    (plan_start plan_end filing_status : String)
    (inflation_rate ytd_taxable_ordinary_income : ℚ) : RothState :=
  conversions.foldl
    (roth_step current_year current_month current_index plan_start plan_end filing_status
      inflation_rate)
    ⟨balances, 0, 0, max 0 ytd_taxable_ordinary_income⟩

theorem parse_bracket_rate_22 : parse_bracket_rate (some "22%") = some (22 / 100 : ℚ) := by
  have hne : ¬ ("22%".data = []) := by decide
  have hraw : remove_percent (trim_chars "22%".data) = ['2', '2'] := by decide
  have hsplit : split_on_char '.' ['2', '2'] = [['2', '2']] := by decide
  have hnat : parse_nat ['2', '2'] = some 22 := by decide
  simp [parse_bracket_rate, hne, hraw, parse_decimal_chars, hsplit, hnat]

theorem bracket_upper_bound_single_22 :
    bracket_upper_bound "single" 2026 DEFAULT_BRACKET_INFLATION (22 / 100) = some 105700 := by
  have hmem : "single" ∈ federal_bracket_statuses := by decide
  rw [bracket_upper_bound]
  simp only [if_pos hmem]
  all_goals try simp [FEDERAL_BRACKETS, bracket_upper_bound_go, year_factor, BASE_TAX_YEAR,
    DEFAULT_BRACKET_INFLATION, abs_sub_lt_iff]
  all_goals try norm_num
  all_goals try simp
  all_goals try norm_num

/-- Claim C6 (amended): an active fill-to-bracket Roth conversion entry
converts exactly 0 in any non-December month (and leaves every balance
unchanged); in December it converts the target bracket ceiling minus the
year-to-date projected ordinary income when that difference is positive,
capped at the source account balance, and 0 when the difference is
non-positive. -/
theorem roth_fill_to_bracket_conversion
    (c : RothConversion) (bal : String → ℚ) (year current_index month : Int)
    (ps pe fs : String) (infl ytd : ℚ) (rate upper : ℚ)
    (hfill : roth_fill_truthy c.fill_to_bracket = true)
    (hactive : roth_active c current_index ps pe = true)
    (hrate : parse_bracket_rate c.fill_to_bracket = some rate)
    (hupper : bracket_upper_bound fs year infl rate = some upper) :
    (month ≠ 12 →
      (execute_roth_conversions [c] bal year month current_index ps pe fs infl ytd).total_converted
        = 0 ∧
      ∀ n, (execute_roth_conversions [c] bal year month current_index ps pe fs infl ytd).balances n
        = bal n) ∧
    (month = 12 →
      (execute_roth_conversions [c] bal year month current_index ps pe fs infl ytd).total_converted
        = min (max 0 (bal c.from_account)) (max 0 (upper - max 0 ytd))) := by
  have hex : execute_roth_conversions [c] bal year month current_index ps pe fs infl ytd
      = roth_step year month current_index ps pe fs infl ⟨bal, 0, 0, max 0 ytd⟩ c := rfl
  rw [hex, roth_step, if_neg (not_not_intro hactive)]
  by_cases hsrc : max 0 (bal c.from_account) ≤ 0
  · rw [if_pos hsrc]
    have hzero : max 0 (bal c.from_account) = 0 := le_antisymm hsrc (le_max_left 0 _)
    refine ⟨fun _ => ⟨rfl, fun _ => rfl⟩, fun _ => ?_⟩
    rw [hzero, min_eq_left (le_max_left 0 _)]
  · rw [if_neg hsrc]
    dsimp only
    rw [hfill, if_pos rfl]
    constructor
    · intro h12
      rw [if_pos h12, if_pos (le_refl (0 : ℚ))]
      exact ⟨rfl, fun _ => rfl⟩
    · intro h12
      rw [if_neg (by simp [h12] : ¬ month ≠ 12), hrate]
      dsimp only
      rw [hupper]
      dsimp only
      by_cases hamt : min (max 0 (bal c.from_account)) (max 0 (upper - max 0 ytd)) ≤ 0
      · rw [if_pos hamt]
        have hge : 0 ≤ min (max 0 (bal c.from_account)) (max 0 (upper - max 0 ytd)) :=
          le_min (le_max_left 0 _) (le_max_left 0 _)
        exact (le_antisymm hamt hge).symm
      · rw [if_neg hamt]
        dsimp only
        ring

/-- Concrete December fill-to-22%-bracket scenario of the spec example:
single filer, year-to-date ordinary income 100000, a traditional IRA of
1000000 converting into a Roth account, plan window 2026-01..2030-12. -/
def roth_cex : RothConversion :=
  ⟨"fill22", "Trad", "Roth", none, "start", "end", some "22%"⟩

def roth_cex_bal : String → ℚ := fun n => if n = "Trad" then 1000000 else 0

/-- Claim C6 counterexample: with the 2026 base-year table of tax_data.py the
single-filer 22% bracket ceiling is 105700, not the 103350 of the spec
example, so the December conversion at year-to-date ordinary income 100000
converts 5700, not 3350. -/
theorem roth_example_converts_5700_not_3350 :
    bracket_upper_bound "single" 2026 DEFAULT_BRACKET_INFLATION (22 / 100) = some 105700 ∧
    (105700 : ℚ) ≠ 103350 ∧
    parse_bracket_rate (some "22%") = some (22 / 100) ∧
    roth_active roth_cex (2026 * 12 + 12) "2026-01" "2030-12" = true ∧
    (execute_roth_conversions [roth_cex] roth_cex_bal 2026 12 (2026 * 12 + 12)
        "2026-01" "2030-12" "single" DEFAULT_BRACKET_INFLATION 100000).total_converted = 5700 ∧
    (5700 : ℚ) ≠ 3350 := by
  refine ⟨bracket_upper_bound_single_22, by norm_num, parse_bracket_rate_22, by decide, ?_,
    by norm_num⟩
  have h := (roth_fill_to_bracket_conversion roth_cex roth_cex_bal 2026 (2026 * 12 + 12) 12
    "2026-01" "2030-12" "single" DEFAULT_BRACKET_INFLATION 100000 (22 / 100) 105700
    (by decide) (by decide) parse_bracket_rate_22 bracket_upper_bound_single_22).2 rfl
  rw [h]
  have hfrom : roth_cex.from_account = "Trad" := rfl
  rw [hfrom]
  norm_num [roth_cex_bal]

/-- Witness for the amended claim C6 at the corrected concrete example
(single filer, December 2026, year-to-date ordinary income 100000, ceiling
105700): the conversion equals min(1000000, 5700) = 5700. -/
theorem roth_fill_to_bracket_conversion_witness :
    roth_fill_truthy roth_cex.fill_to_bracket = true ∧
    roth_active roth_cex (2026 * 12 + 12) "2026-01" "2030-12" = true ∧
    ((12 : Int) = 12 →
      (execute_roth_conversions [roth_cex] roth_cex_bal 2026 12 (2026 * 12 + 12)
          "2026-01" "2030-12" "single" DEFAULT_BRACKET_INFLATION 100000).total_converted
        = min (max 0 (roth_cex_bal roth_cex.from_account)) (max 0 (105700 - max 0 100000))) :=
  ⟨by decide, by decide,
   (roth_fill_to_bracket_conversion roth_cex roth_cex_bal 2026 (2026 * 12 + 12) 12
     "2026-01" "2030-12" "single" DEFAULT_BRACKET_INFLATION 100000 (22 / 100) 105700
     (by decide) (by decide) parse_bracket_rate_22 bracket_upper_bound_single_22).2⟩

/-! ## social_security.py -/

/-- SocialSecurity from schema.py. -/
structure SocialSecurity where
  owner : String
  pia_at_fra : ℚ
  fra_age_years : Int
  fra_age_months : Int
  claiming_age_years : Int
  claiming_age_months : Int
  cola_assumption : String
  cola_rate : Option ℚ
  deriving Repr, DecidableEq

/-- social_security.py _age_months: int(max(0.0, age*12)); the argument is
nonnegative, so Python truncation equals the floor. -/
def age_months (age_years : ℚ) : Int := Int.floor (max 0 (age_years * 12))

def claim_months (item : SocialSecurity) : Int :=
  item.claiming_age_years * 12 + item.claiming_age_months

def fra_months (item : SocialSecurity) : Int :=
  item.fra_age_years * 12 + item.fra_age_months

/-- social_security.py _cola_rate (`item.cola_rate or 0.0` is getD 0). -/
def cola_rate_of (item : SocialSecurity) (inflation_rate : ℚ) : ℚ :=
  if item.cola_assumption = "fixed" then item.cola_rate.getD 0
  else if item.cola_assumption = "match_inflation" then inflation_rate
  else if item.cola_assumption = "inflation_plus" then inflation_rate + item.cola_rate.getD 0
  else if item.cola_assumption = "inflation_minus" then inflation_rate - item.cola_rate.getD 0
  else 0

/-- social_security.py _claiming_adjustment. -/
def claiming_adjustment (item : SocialSecurity) : ℚ :=
  let diff := claim_months item - fra_months item
  if diff = 0 then 1
  else if diff < 0 then
    let early := |diff|
    let first_36 := min 36 early
    let additional := max 0 (early - 36)
    let reduction := (first_36 : ℚ) * (5 / 900) + (additional : ℚ) * (5 / 1200)
    max 0 (1 - reduction)
  else 1 + (diff : ℚ) * (2 / 300)

/-- social_security.py _base_monthly_benefit. -/
def base_monthly_benefit (item : SocialSecurity) : ℚ :=
  max 0 (item.pia_at_fra * claiming_adjustment item)

/-- social_security.py _owner_monthly_benefit.  The Python floor division
(age_m - claim_m) // 12 runs on a nonnegative difference here, so Int
division agrees with it. -/
def owner_monthly_benefit (item : SocialSecurity) (age_years inflation_rate : ℚ) : ℚ :=
  let age_m := age_months age_years
  let claim_m := claim_months item
  if age_m < claim_m then 0
  else
    let years_after_claim := max 0 ((age_m - claim_m) / 12)
    let cola := cola_rate_of item inflation_rate
    base_monthly_benefit item * (1 + cola) ^ years_after_claim.toNat

/-- social_security.py _spousal_monthly_benefit. -/
def spousal_monthly_benefit (owner spouse : SocialSecurity)
    (age_years inflation_rate : ℚ) : ℚ :=
  let age_m := age_months age_years
  if age_m < claim_months owner then 0
  else
    let base := (1 / 2) * max 0 spouse.pia_at_fra * claiming_adjustment owner
    let years_after_claim := max 0 ((age_m - claim_months owner) / 12)
    let cola := cola_rate_of owner inflation_rate
    max 0 (base * (1 + cola) ^ years_after_claim.toNat)

/-- Python dict insertion (update in place if present, else append). -/
def dict_insert (l : List (String × SocialSecurity)) (k : String) (v : SocialSecurity) :
    List (String × SocialSecurity) :=
  if l.any (fun q => q.1 = k) then l.map (fun q => if q.1 = k then (k, v) else q)
  else l ++ [(k, v)]

/-- `{item.owner: item for item in entries}` of monthly_social_security_income. -/
def by_owner_dict (entries : List SocialSecurity) : List (String × SocialSecurity) :=
  entries.foldl (fun acc item => dict_insert acc item.owner item) []

def lookup_dict {α : Type} (l : List (String × α)) (k : String) : Option α :=
  (l.find? (fun q => q.1 = k)).map Prod.snd

def dict_set (l : List (String × ℚ)) (k : String) (v : ℚ) : List (String × ℚ) :=
  if l.any (fun q => q.1 = k) then l.map (fun q => if q.1 = k then (k, v) else q)
  else l ++ [(k, v)]

/-- social_security.py monthly_social_security_income: returns
(total_monthly_income, by_owner_monthly_income). -/
def monthly_social_security_income (entries : List SocialSecurity)
    (owner_ages : String → ℚ) (inflation_rate : ℚ) : ℚ × List (String × ℚ) :=
  let by_owner := by_owner_dict entries
  let benefits0 : List (String × ℚ) :=
    by_owner.map (fun q => (q.1, owner_monthly_benefit q.2 (owner_ages q.1) inflation_rate))
  let benefits1 :=
    match lookup_dict by_owner "primary", lookup_dict by_owner "spouse" with
    | some primary, some spouse =>
      let b1 :=
        if primary.pia_at_fra < (1 / 2) * spouse.pia_at_fra then
          dict_set benefits0 "primary"
            (max ((lookup_dict benefits0 "primary").getD 0)
              (spousal_monthly_benefit primary spouse (owner_ages "primary") inflation_rate))
        else benefits0
      if spouse.pia_at_fra < (1 / 2) * primary.pia_at_fra then
        dict_set b1 "spouse"
          (max ((lookup_dict b1 "spouse").getD 0)
            (spousal_monthly_benefit spouse primary (owner_ages "spouse") inflation_rate))
      else b1
    | _, _ => benefits0
  ((benefits1.map (fun q => max 0 q.2)).sum, benefits1)

theorem claiming_adjustment_nonneg (item : SocialSecurity) :
    0 ≤ claiming_adjustment item := by
  rw [claiming_adjustment]
  dsimp only
  by_cases h0 : claim_months item - fra_months item = 0
  · rw [if_pos h0]
    norm_num
  · rw [if_neg h0]
    by_cases hneg : claim_months item - fra_months item < 0
    · rw [if_pos hneg]
      exact le_max_left 0 _
    · rw [if_neg hneg]
      push_neg at hneg
      have hpos : 0 < claim_months item - fra_months item := lt_of_le_of_ne hneg (Ne.symm h0)
      have : (0 : ℚ) < (claim_months item - fra_months item : ℤ) := by exact_mod_cast hpos
      nlinarith

/-- When the beneficiary has reached the claiming age and the other PIA is
nonnegative and 1 + COLA > 0, the spousal benefit of social_security.py
_spousal_monthly_benefit is exactly half the other PIA times the beneficiary
claiming adjustment, COLA-compounded (both max 0 guards are inactive). -/
theorem spousal_monthly_benefit_eq (a b : SocialSecurity) (age_years infl : ℚ)
    (hbpia : 0 ≤ b.pia_at_fra)
    (hacola : 0 < 1 + cola_rate_of a infl)
    (hage : claim_months a ≤ age_months age_years) :
    spousal_monthly_benefit a b age_years infl
      = (1 / 2) * b.pia_at_fra * claiming_adjustment a *
          (1 + cola_rate_of a infl) ^
            (max 0 ((age_months age_years - claim_months a) / 12)).toNat := by
  rw [spousal_monthly_benefit]
  dsimp only
  rw [if_neg (not_lt.mpr hage), max_eq_right hbpia]
  have hb : 0 ≤ (1 / 2) * b.pia_at_fra * claiming_adjustment a :=
    mul_nonneg (mul_nonneg (by norm_num) hbpia) (claiming_adjustment_nonneg a)
  rw [max_eq_right (mul_nonneg hb (le_of_lt (pow_pos hacola _)))]

/-- Claim C7 (amended): with a positive PIA the monthly benefit is exactly 0
for every month whose owner age in months is below the claiming months; it is
strictly positive from the claiming month onward provided the claiming
adjustment is positive (claiming at least 19 years early drives it to 0) and
1 + COLA > 0 (a fixed COLA rate of -2 or less makes the benefit nonpositive);
and whichever owner has PIA below half the other PIA gets, in
monthly_social_security_income, the larger of the own computed benefit and
0.5 × the other PIA × the own claiming adjustment, COLA-compounded over the
full years since the claim date — stated here for both directions: the
primary as the lower earner (social_security.py lines 89-94) and the spouse
as the lower earner (lines 95-99). -/
theorem social_security_benefit_spec
    (item : SocialSecurity) (age infl : ℚ)
    (p s : SocialSecurity) (ages : String → ℚ)
    (hpia : 0 < item.pia_at_fra)
    (hadj : 0 < claiming_adjustment item)
    (hcola : 0 < 1 + cola_rate_of item infl)
    (hpo : p.owner = "primary") (hso : s.owner = "spouse") :
    (age_months age < claim_months item → owner_monthly_benefit item age infl = 0) ∧
    (claim_months item ≤ age_months age → 0 < owner_monthly_benefit item age infl) ∧
    (0 < s.pia_at_fra → p.pia_at_fra < (1 / 2) * s.pia_at_fra →
      0 < 1 + cola_rate_of p infl → claim_months p ≤ age_months (ages "primary") →
      lookup_dict (monthly_social_security_income [p, s] ages infl).2 "primary"
        = some (max (owner_monthly_benefit p (ages "primary") infl)
            ((1 / 2) * s.pia_at_fra * claiming_adjustment p *
              (1 + cola_rate_of p infl) ^
                (max 0 ((age_months (ages "primary") - claim_months p) / 12)).toNat))) ∧
    (0 < p.pia_at_fra → s.pia_at_fra < (1 / 2) * p.pia_at_fra →
      0 < 1 + cola_rate_of s infl → claim_months s ≤ age_months (ages "spouse") →
      lookup_dict (monthly_social_security_income [p, s] ages infl).2 "spouse"
        = some (max (owner_monthly_benefit s (ages "spouse") infl)
            ((1 / 2) * p.pia_at_fra * claiming_adjustment s *
              (1 + cola_rate_of s infl) ^
                (max 0 ((age_months (ages "spouse") - claim_months s) / 12)).toNat))) := by
  have hby : by_owner_dict [p, s] = [("primary", p), ("spouse", s)] := by
    simp [by_owner_dict, dict_insert, hpo, hso]
  refine ⟨?_, ?_, ?_, ?_⟩
  · intro h
    rw [owner_monthly_benefit]
    dsimp only
    rw [if_pos h]
  · intro h
    rw [owner_monthly_benefit]
    dsimp only
    rw [if_neg (not_lt.mpr h), base_monthly_benefit,
      max_eq_right (le_of_lt (mul_pos hpia hadj))]
    exact mul_pos (mul_pos hpia hadj) (pow_pos hcola _)
  · intro hspia hlt hpcola hpage
    have hns : ¬ (s.pia_at_fra < (1 / 2) * p.pia_at_fra) := by nlinarith
    have hsp := spousal_monthly_benefit_eq p s (ages "primary") infl hspia.le hpcola hpage
    have hlt2 : p.pia_at_fra < 2⁻¹ * s.pia_at_fra := by rw [← one_div]; exact hlt
    have hns2 : ¬ s.pia_at_fra < 2⁻¹ * p.pia_at_fra := by rw [← one_div]; exact hns
    simp [monthly_social_security_income, hby, lookup_dict, dict_set, hlt, hns, hlt2, hns2, hsp]
  · intro hppia hsl hscola hsage
    have hns : ¬ (p.pia_at_fra < (1 / 2) * s.pia_at_fra) := by nlinarith
    have hsp := spousal_monthly_benefit_eq s p (ages "spouse") infl hppia.le hscola hsage
    have hsl2 : s.pia_at_fra < 2⁻¹ * p.pia_at_fra := by rw [← one_div]; exact hsl
    have hns2 : ¬ p.pia_at_fra < 2⁻¹ * s.pia_at_fra := by rw [← one_div]; exact hns
    simp [monthly_social_security_income, hby, lookup_dict, dict_set, hsl, hns, hsl2, hns2, hsp]

/-- A validation-passing entry claiming 27 years before full retirement age. -/
def ss_cex : SocialSecurity := ⟨"primary", 1000, 67, 0, 40, 0, "fixed", some 0⟩

/-- A validation-passing entry claiming at full retirement age with a fixed
COLA rate of −2 (validate.py restricts cola_assumption to an enum but puts
no bound on cola_rate). -/
def ss_cex2 : SocialSecurity := ⟨"primary", 1000, 67, 0, 67, 0, "fixed", some (-2)⟩

/-- Claim C7 counterexample, two parts.  First: claiming far enough before
full retirement age (here 27 years early: reduction = 36×5/900 + 288×5/1200
= 1.4) drives the claiming adjustment to max(0, 1−1.4) = 0, so an owner with
positive PIA 1000 gets benefit exactly 0 at and after the claiming age of 40
— not strictly positive from the claiming month onward as the claim states.
Second: a fixed COLA rate of −2 makes 1 + COLA = −1, so one full year after
an on-time claim the benefit of an owner with positive PIA and claiming
adjustment 1 is 1000 × (−1)^1 = −1000 < 0, which is why the amendment also
demands 1 + COLA rate > 0 for strict positivity. -/
theorem ss_early_claim_zero_counterexample :
    (0 < ss_cex.pia_at_fra ∧
     claim_months ss_cex ≤ age_months 40 ∧
     owner_monthly_benefit ss_cex 40 (3 / 100) = 0) ∧
    (0 < ss_cex2.pia_at_fra ∧
     claiming_adjustment ss_cex2 = 1 ∧
     claim_months ss_cex2 ≤ age_months 68 ∧
     owner_monthly_benefit ss_cex2 68 (3 / 100) < 0) := by
  constructor
  · refine ⟨by norm_num [ss_cex], ?_, ?_⟩
    · norm_num [claim_months, age_months, ss_cex]
    · have hadj : claiming_adjustment ss_cex = 0 := by
        norm_num [claiming_adjustment, claim_months, fra_months, ss_cex]
      have hbase : base_monthly_benefit ss_cex = 0 := by
        rw [base_monthly_benefit, hadj]
        norm_num [ss_cex]
      rw [owner_monthly_benefit]
      dsimp only
      rw [if_neg (by norm_num [claim_months, age_months, ss_cex]), hbase]
      ring
  · have hadj2 : claiming_adjustment ss_cex2 = 1 := by
      norm_num [claiming_adjustment, claim_months, fra_months, ss_cex2]
    have hbase2 : base_monthly_benefit ss_cex2 = 1000 := by
      rw [base_monthly_benefit, hadj2]
      norm_num [ss_cex2]
    have hage2 : age_months 68 = 816 := by norm_num [age_months]
    have hcm2 : claim_months ss_cex2 = 804 := by norm_num [claim_months, ss_cex2]
    refine ⟨by norm_num [ss_cex2], hadj2, ?_, ?_⟩
    · rw [hage2, hcm2]
      norm_num
    · rw [owner_monthly_benefit]
      dsimp only
      rw [if_neg (by rw [hage2, hcm2]; norm_num), hbase2, hage2, hcm2]
      have hexp : (max 0 (((816 : ℤ) - 804) / 12)).toNat = 1 := by decide
      rw [hexp]
      norm_num [cola_rate_of, ss_cex2]

/-- The primary/spouse pair of test_social_security.py (PIA 1000 vs 3200,
both claiming at full retirement age 67, fixed 0% COLA, both aged 67). -/
def ss_wit_primary : SocialSecurity := ⟨"primary", 1000, 67, 0, 67, 0, "fixed", some 0⟩

def ss_wit_spouse : SocialSecurity := ⟨"spouse", 3200, 67, 0, 67, 0, "fixed", some 0⟩

def ss_wit_ages : String → ℚ := fun _ => 67

/-- The same pair with the PIAs swapped, so the spouse is the lower earner
and the social_security.py lines 95-99 branch fires. -/
def ss_wit_primary2 : SocialSecurity := ⟨"primary", 3200, 67, 0, 67, 0, "fixed", some 0⟩

def ss_wit_spouse2 : SocialSecurity := ⟨"spouse", 1000, 67, 0, 67, 0, "fixed", some 0⟩

/-- Witness for the amended claim C7 at the pair of test_social_security.py
(primary as the lower earner) and at the same pair with the PIAs swapped
(spouse as the lower earner). -/
theorem social_security_benefit_spec_witness :
    0 < ss_wit_primary.pia_at_fra ∧
    lookup_dict (monthly_social_security_income [ss_wit_primary, ss_wit_spouse]
        ss_wit_ages (3 / 100)).2 "primary"
      = some (max (owner_monthly_benefit ss_wit_primary (ss_wit_ages "primary") (3 / 100))
          ((1 / 2) * ss_wit_spouse.pia_at_fra * claiming_adjustment ss_wit_primary *
            (1 + cola_rate_of ss_wit_primary (3 / 100)) ^
              (max 0 ((age_months (ss_wit_ages "primary") - claim_months ss_wit_primary) / 12)).toNat)) ∧
    lookup_dict (monthly_social_security_income [ss_wit_primary2, ss_wit_spouse2]
        ss_wit_ages (3 / 100)).2 "spouse"
      = some (max (owner_monthly_benefit ss_wit_spouse2 (ss_wit_ages "spouse") (3 / 100))
          ((1 / 2) * ss_wit_primary2.pia_at_fra * claiming_adjustment ss_wit_spouse2 *
            (1 + cola_rate_of ss_wit_spouse2 (3 / 100)) ^
              (max 0 ((age_months (ss_wit_ages "spouse") - claim_months ss_wit_spouse2) / 12)).toNat)) :=
  ⟨by norm_num [ss_wit_primary],
   (social_security_benefit_spec ss_wit_primary 67 (3 / 100) ss_wit_primary ss_wit_spouse
     ss_wit_ages
     (by norm_num [ss_wit_primary])
     (by norm_num [claiming_adjustment, claim_months, fra_months, ss_wit_primary])
     (by simp [cola_rate_of, ss_wit_primary])
     rfl rfl).2.2.1
     (by norm_num [ss_wit_spouse])
     (by norm_num [ss_wit_primary, ss_wit_spouse])
     (by simp [cola_rate_of, ss_wit_primary])
     (by norm_num [claim_months, age_months, ss_wit_primary, ss_wit_ages]),
   (social_security_benefit_spec ss_wit_primary2 67 (3 / 100) ss_wit_primary2 ss_wit_spouse2
     ss_wit_ages
     (by norm_num [ss_wit_primary2])
     (by norm_num [claiming_adjustment, claim_months, fra_months, ss_wit_primary2])
     (by simp [cola_rate_of, ss_wit_primary2])
     rfl rfl).2.2.2
     (by norm_num [ss_wit_primary2])
     (by norm_num [ss_wit_primary2, ss_wit_spouse2])
     (by simp [cola_rate_of, ss_wit_spouse2])
     (by norm_num [claim_months, age_months, ss_wit_spouse2, ss_wit_ages])⟩

/-! ## rmd.py -/

/-- RMDSettings from schema.py. -/
structure RMDSettings where
  enabled : Bool
  rmd_start_age : Int
  accounts : List String
  destination_account : Option String
  deriving Repr, DecidableEq

/-- The IRS Uniform Lifetime Table of rmd.py (ages 73..120). -/
def UNIFORM_LIFETIME_DIVISORS (age : Int) : Option ℚ :=
  if age = 73 then some (265/10) else if age = 74 then some (255/10)
  else if age = 75 then some (246/10) else if age = 76 then some (237/10)
  else if age = 77 then some (229/10) else if age = 78 then some 22
  else if age = 79 then some (211/10) else if age = 80 then some (202/10)
  else if age = 81 then some (194/10) else if age = 82 then some (185/10)
  else if age = 83 then some (177/10) else if age = 84 then some (168/10)
  else if age = 85 then some 16 else if age = 86 then some (152/10)
  else if age = 87 then some (144/10) else if age = 88 then some (137/10)
  else if age = 89 then some (129/10) else if age = 90 then some (122/10)
  else if age = 91 then some (115/10) else if age = 92 then some (108/10)
  else if age = 93 then some (101/10) else if age = 94 then some (95/10)
  else if age = 95 then some (89/10) else if age = 96 then some (84/10)
  else if age = 97 then some (78/10) else if age = 98 then some (73/10)
  else if age = 99 then some (68/10) else if age = 100 then some (64/10)
  else if age = 101 then some 6 else if age = 102 then some (56/10)
  else if age = 103 then some (52/10) else if age = 104 then some (49/10)
  else if age = 105 then some (46/10) else if age = 106 then some (43/10)
  else if age = 107 then some (41/10) else if age = 108 then some (39/10)
  else if age = 109 then some (37/10) else if age = 110 then some (35/10)
  else if age = 111 then some (34/10) else if age = 112 then some (33/10)
  else if age = 113 then some (31/10) else if age = 114 then some 3
  else if age = 115 then some (29/10) else if age = 116 then some (28/10)
  else if age = 117 then some (27/10) else if age = 118 then some (25/10)
  else if age = 119 then some (23/10) else if age = 120 then some 2
  else none

/-- rmd.py _age_whole_years: int(max(0.0, age)); nonnegative, so floor. -/
def age_whole_years (age_years : ℚ) : Int := Int.floor (max 0 age_years)

/-- rmd.py divisor_for_age (min and max of the table keys are 73 and 120;
the trailing unreachable `return None` is the final none). -/
def divisor_for_age (age_years : ℚ) : Option ℚ :=
  let age := age_whole_years age_years
  if age < 73 then none
  else
    match UNIFORM_LIFETIME_DIVISORS age with
    | some d => some d
    | none => if age > 120 then UNIFORM_LIFETIME_DIVISORS 120 else none

/-- rmd.py compute_rmd_amount. -/
def compute_rmd_amount (prior_year_end_balance : ℚ) (age_years : ℚ) : ℚ :=
  match divisor_for_age age_years with
  | none => 0
  | some divisor =>
    if prior_year_end_balance ≤ 0 then 0 else max 0 (prior_year_end_balance / divisor)

theorem compute_rmd_amount_nonneg (b age : ℚ) : 0 ≤ compute_rmd_amount b age := by
  rw [compute_rmd_amount]
  cases divisor_for_age age with
  | none => exact le_refl 0
  | some d =>
    dsimp only
    by_cases hb : b ≤ 0
    · rw [if_pos hb]
    · rw [if_neg hb]
      exact le_max_left 0 _

/-- The mutable state of the rmd.py execute_rmds loop. -/
structure RmdState where
  balances : String → ℚ
  total_withdrawn : ℚ

/-- One iteration of the loop of rmd.py execute_rmds over settings.accounts. -/
def rmd_step (settings : RMDSettings) (accounts_by_name : List Account)
    (prior_year_end_balances : String → Option ℚ) (owner_ages : String → ℚ)
    (dest : String) (st : RmdState) (account_name : String) : RmdState :=
  match find_account accounts_by_name account_name with
  | none => st
  | some account =>
    if owner_ages account.owner < (settings.rmd_start_age : ℚ) then st
    else
      let prior_balance :=
        max 0 ((prior_year_end_balances account_name).getD (st.balances account_name))
      let target := compute_rmd_amount prior_balance (owner_ages account.owner)
      if target ≤ 0 then st
      else
        let available := max 0 (st.balances account_name)
        let amount := min available target
        if amount ≤ 0 then st
        else
          { balances := fun n =>
              if n = dest then
                (if n = account_name then st.balances n - amount else st.balances n) + amount
              else
                (if n = account_name then st.balances n - amount else st.balances n)
            total_withdrawn := st.total_withdrawn + amount }

/-- rmd.py execute_rmds.  The source indexes
balances[settings.destination_account] directly; a None destination would be
a KeyError on the first deposit (validation requires a destination account
whenever RMDs are enabled), modelled by the unchanged-state branch. -/
def execute_rmds (settings : RMDSettings) (accounts_by_name : List Account)
    (balances : String → ℚ) (prior_year_end_balances : String → Option ℚ)
    (owner_ages : String → ℚ) : RmdState :=
  if ¬ settings.enabled then ⟨balances, 0⟩
  else
    match settings.destination_account with
    | some dest =>
      settings.accounts.foldl
        (rmd_step settings accounts_by_name prior_year_end_balances owner_ages dest)
        ⟨balances, 0⟩
    | none => ⟨balances, 0⟩

/-- Pointwise characterization of one rmd_step iteration: some amount ≥ 0
moves from the named account to the destination; the amount is 0 below the
start age and min(available, required) at or above it. -/
theorem rmd_step_cases (settings : RMDSettings) (abn : List Account)
    (prior : String → Option ℚ) (ages : String → ℚ) (dest : String)
    (st : RmdState) (name : String) (hnd : name ≠ dest) :
    ∃ amount : ℚ, 0 ≤ amount ∧
      (∀ n, (rmd_step settings abn prior ages dest st name).balances n
        = if n = dest then st.balances n + amount
          else if n = name then st.balances n - amount else st.balances n) ∧
      (rmd_step settings abn prior ages dest st name).total_withdrawn
        = st.total_withdrawn + amount ∧
      (∀ a, find_account abn name = some a →
        (ages a.owner < (settings.rmd_start_age : ℚ) → amount = 0) ∧
        ((settings.rmd_start_age : ℚ) ≤ ages a.owner →
          amount = min (max 0 (st.balances name))
            (compute_rmd_amount (max 0 ((prior name).getD (st.balances name)))
              (ages a.owner)))) := by
  have hzero : ∀ st2 : RmdState, st2 = st →
      (∀ n, st2.balances n
        = if n = dest then st.balances n + 0
          else if n = name then st.balances n - 0 else st.balances n) := by
    intro st2 h2 n
    subst h2
    by_cases h1 : n = dest
    · rw [if_pos h1, h1]
      ring
    · rw [if_neg h1]
      by_cases h2 : n = name
      · rw [if_pos h2, h2]
        ring
      · rw [if_neg h2]
  rw [rmd_step]
  cases hfind : find_account abn name with
  | none =>
    exact ⟨0, le_refl 0, hzero st rfl, by ring, fun a ha => by cases ha⟩
  | some account =>
    dsimp only
    by_cases hage : ages account.owner < (settings.rmd_start_age : ℚ)
    · rw [if_pos hage]
      refine ⟨0, le_refl 0, hzero st rfl, by ring, fun a ha => ?_⟩
      injection ha with ha
      subst ha
      exact ⟨fun _ => rfl, fun hle => absurd hage (not_lt.mpr hle)⟩
    · rw [if_neg hage]
      push_neg at hage
      set target := compute_rmd_amount (max 0 ((prior name).getD (st.balances name)))
        (ages account.owner) with htarget
      have htnn : 0 ≤ target := compute_rmd_amount_nonneg _ _
      have havnn : (0 : ℚ) ≤ max 0 (st.balances name) := le_max_left 0 _
      by_cases ht0 : target ≤ 0
      · rw [if_pos ht0]
        have htz : target = 0 := le_antisymm ht0 htnn
        refine ⟨0, le_refl 0, hzero st rfl, by ring, fun a ha => ?_⟩
        injection ha with ha
        subst ha
        refine ⟨fun hlt => absurd hlt (not_lt.mpr hage), fun _ => ?_⟩
        rw [← htarget, htz, min_eq_right havnn]
      · rw [if_neg ht0]
        push_neg at ht0
        by_cases ham : min (max 0 (st.balances name)) target ≤ 0
        · rw [if_pos ham]
          have hmnn : (0 : ℚ) ≤ min (max 0 (st.balances name)) target :=
            le_min havnn htnn
          have hmz : min (max 0 (st.balances name)) target = 0 := le_antisymm ham hmnn
          refine ⟨0, le_refl 0, hzero st rfl, by ring, fun a ha => ?_⟩
          injection ha with ha
          subst ha
          exact ⟨fun hlt => absurd hlt (not_lt.mpr hage), fun _ => by rw [← htarget, hmz]⟩
        · rw [if_neg ham]
          push_neg at ham
          refine ⟨min (max 0 (st.balances name)) target, le_of_lt ham, ?_, rfl, fun a ha => ?_⟩
          · intro n
            dsimp only
            by_cases h1 : n = dest
            · rw [if_pos h1, if_pos h1, if_neg (by rw [h1]; exact fun h => hnd h.symm)]
            · rw [if_neg h1, if_neg h1]
          · injection ha with ha
            subst ha
            exact ⟨fun hlt => absurd hlt (not_lt.mpr hage), fun _ => by rw [← htarget]⟩

/-- Invariant of the execute_rmds loop: accounts outside the configured list
are untouched, the destination accumulates exactly the total withdrawn, and
each configured account at or above the start age loses exactly
min(available, required). -/
theorem rmd_fold_spec (settings : RMDSettings) (abn : List Account)
    (prior : String → Option ℚ) (ages : String → ℚ) (dest : String)
    (names : List String) (st : RmdState)
    (hnodup : names.Nodup) (hdnin : dest ∉ names) :
    (∀ n, n ∉ names → n ≠ dest →
      (names.foldl (rmd_step settings abn prior ages dest) st).balances n = st.balances n) ∧
    ((names.foldl (rmd_step settings abn prior ages dest) st).balances dest
      = st.balances dest
        + ((names.foldl (rmd_step settings abn prior ages dest) st).total_withdrawn
            - st.total_withdrawn)) ∧
    (∀ n ∈ names, ∀ a, find_account abn n = some a →
      (ages a.owner < (settings.rmd_start_age : ℚ) →
        (names.foldl (rmd_step settings abn prior ages dest) st).balances n = st.balances n) ∧
      ((settings.rmd_start_age : ℚ) ≤ ages a.owner →
        (names.foldl (rmd_step settings abn prior ages dest) st).balances n
          = st.balances n - min (max 0 (st.balances n))
              (compute_rmd_amount (max 0 ((prior n).getD (st.balances n))) (ages a.owner)))) := by
  induction names generalizing st with
  | nil =>
    exact ⟨fun n _ _ => rfl, by simp, fun n hn => absurd hn (List.not_mem_nil n)⟩
  | cons name rest ih =>
    obtain ⟨hname_rest, hrest_nodup⟩ := List.nodup_cons.mp hnodup
    have hdne : dest ∉ rest := fun h => hdnin (List.mem_cons_of_mem _ h)
    have hnd : name ≠ dest := fun h => hdnin (by rw [← h]; exact List.mem_cons_self _ _)
    obtain ⟨amount, hamt_nn, hbal, htot, hchar⟩ :=
      rmd_step_cases settings abn prior ages dest st name hnd
    set st1 := rmd_step settings abn prior ages dest st name with hst1
    obtain ⟨ia, ib, ic⟩ := ih st1 hrest_nodup hdne
    have hfold : (name :: rest).foldl (rmd_step settings abn prior ages dest) st
        = rest.foldl (rmd_step settings abn prior ages dest) st1 := rfl
    refine ⟨?_, ?_, ?_⟩
    · intro n hn hne
      have hn1 : n ≠ name := fun h => hn (by rw [h]; exact List.mem_cons_self _ _)
      have hn2 : n ∉ rest := fun h => hn (List.mem_cons_of_mem _ h)
      rw [hfold, ia n hn2 hne, hbal n, if_neg hne, if_neg hn1]
    · rw [hfold, ib, htot, hbal dest, if_pos rfl]
      ring
    · intro n hn a hfa
      rcases List.mem_cons.mp hn with rfl | hmem
      · have h1 : (rest.foldl (rmd_step settings abn prior ages dest) st1).balances n
            = st1.balances n := ia n hname_rest hnd
        have h2 : st1.balances n = st.balances n - amount := by
          rw [hbal n, if_neg hnd, if_pos rfl]
        obtain ⟨hlt, hge⟩ := hchar a hfa
        constructor
        · intro hagelt
          rw [hfold, h1, h2, hlt hagelt]
          ring
        · intro hagele
          rw [hfold, h1, h2, hge hagele]
      · have hnne : n ≠ dest := fun h => hdne (h ▸ hmem)
        have hnn : n ≠ name := fun h => hname_rest (h ▸ hmem)
        have hst1n : st1.balances n = st.balances n := by
          rw [hbal n, if_neg hnne, if_neg hnn]
        obtain ⟨jlt, jge⟩ := ic n hmem a hfa
        constructor
        · intro hagelt
          rw [hfold, jlt hagelt, hst1n]
        · intro hagele
          rw [hfold, jge hagele, hst1n]

theorem uniform_divisors_above_table (A : Int) (h : 120 < A) :
    UNIFORM_LIFETIME_DIVISORS A = none := by
  rw [UNIFORM_LIFETIME_DIVISORS]
  rw [if_neg (by omega : ¬ A = 73)]
  rw [if_neg (by omega : ¬ A = 74)]
  rw [if_neg (by omega : ¬ A = 75)]
  rw [if_neg (by omega : ¬ A = 76)]
  rw [if_neg (by omega : ¬ A = 77)]
  rw [if_neg (by omega : ¬ A = 78)]
  rw [if_neg (by omega : ¬ A = 79)]
  rw [if_neg (by omega : ¬ A = 80)]
  rw [if_neg (by omega : ¬ A = 81)]
  rw [if_neg (by omega : ¬ A = 82)]
  rw [if_neg (by omega : ¬ A = 83)]
  rw [if_neg (by omega : ¬ A = 84)]
  rw [if_neg (by omega : ¬ A = 85)]
  rw [if_neg (by omega : ¬ A = 86)]
  rw [if_neg (by omega : ¬ A = 87)]
  rw [if_neg (by omega : ¬ A = 88)]
  rw [if_neg (by omega : ¬ A = 89)]
  rw [if_neg (by omega : ¬ A = 90)]
  rw [if_neg (by omega : ¬ A = 91)]
  rw [if_neg (by omega : ¬ A = 92)]
  rw [if_neg (by omega : ¬ A = 93)]
  rw [if_neg (by omega : ¬ A = 94)]
  rw [if_neg (by omega : ¬ A = 95)]
  rw [if_neg (by omega : ¬ A = 96)]
  rw [if_neg (by omega : ¬ A = 97)]
  rw [if_neg (by omega : ¬ A = 98)]
  rw [if_neg (by omega : ¬ A = 99)]
  rw [if_neg (by omega : ¬ A = 100)]
  rw [if_neg (by omega : ¬ A = 101)]
  rw [if_neg (by omega : ¬ A = 102)]
  rw [if_neg (by omega : ¬ A = 103)]
  rw [if_neg (by omega : ¬ A = 104)]
  rw [if_neg (by omega : ¬ A = 105)]
  rw [if_neg (by omega : ¬ A = 106)]
  rw [if_neg (by omega : ¬ A = 107)]
  rw [if_neg (by omega : ¬ A = 108)]
  rw [if_neg (by omega : ¬ A = 109)]
  rw [if_neg (by omega : ¬ A = 110)]
  rw [if_neg (by omega : ¬ A = 111)]
  rw [if_neg (by omega : ¬ A = 112)]
  rw [if_neg (by omega : ¬ A = 113)]
  rw [if_neg (by omega : ¬ A = 114)]
  rw [if_neg (by omega : ¬ A = 115)]
  rw [if_neg (by omega : ¬ A = 116)]
  rw [if_neg (by omega : ¬ A = 117)]
  rw [if_neg (by omega : ¬ A = 118)]
  rw [if_neg (by omega : ¬ A = 119)]
  rw [if_neg (by omega : ¬ A = 120)]

/-- Claim C8: the RMD amount is priorYearEndBalance over the Uniform Lifetime
Table divisor at the whole-year owner age, 0 below the table minimum of 73,
clamped to the age-120 divisor above the table; RMD(265000, 73) = 10000
exactly; and execute_rmds moves min(required, available) from every
configured account whose owner is at or above the start age into the
destination account, which receives exactly the total withdrawn. -/
theorem rmd_spec (settings : RMDSettings) (accounts_by_name : List Account)
    (balances : String → ℚ) (prior : String → Option ℚ) (ages : String → ℚ) (dest : String)
    (hen : settings.enabled = true)
    (hdest : settings.destination_account = some dest)
    (hnodup : settings.accounts.Nodup)
    (hdnin : dest ∉ settings.accounts) :
    (∀ b age, age_whole_years age < 73 → compute_rmd_amount b age = 0) ∧
    (∀ age, 120 < age_whole_years age → divisor_for_age age = some 2) ∧
    compute_rmd_amount 265000 73 = 10000 ∧
    ((execute_rmds settings accounts_by_name balances prior ages).balances dest
      = balances dest
        + (execute_rmds settings accounts_by_name balances prior ages).total_withdrawn) ∧
    (∀ n ∈ settings.accounts, ∀ a, find_account accounts_by_name n = some a →
      (ages a.owner < (settings.rmd_start_age : ℚ) →
        (execute_rmds settings accounts_by_name balances prior ages).balances n = balances n) ∧
      ((settings.rmd_start_age : ℚ) ≤ ages a.owner →
        (execute_rmds settings accounts_by_name balances prior ages).balances n
          = balances n - min (max 0 (balances n))
              (compute_rmd_amount (max 0 ((prior n).getD (balances n))) (ages a.owner)))) := by
  have hex : execute_rmds settings accounts_by_name balances prior ages
      = settings.accounts.foldl (rmd_step settings accounts_by_name prior ages dest)
          ⟨balances, 0⟩ := by
    rw [execute_rmds, if_neg (not_not_intro hen), hdest]
  obtain ⟨fa, fb, fc⟩ := rmd_fold_spec settings accounts_by_name prior ages dest
    settings.accounts ⟨balances, 0⟩ hnodup hdnin
  refine ⟨?_, ?_, ?_, ?_, ?_⟩
  · intro b age h
    rw [compute_rmd_amount, divisor_for_age]
    try dsimp only
    rw [if_pos h]
  · intro age h
    rw [divisor_for_age]
    try dsimp only
    rw [if_neg (by omega)]
    have hnone : UNIFORM_LIFETIME_DIVISORS (age_whole_years age) = none :=
      uniform_divisors_above_table _ h
    rw [hnone]
    try dsimp only
    rw [if_pos (by omega)]
    norm_num [UNIFORM_LIFETIME_DIVISORS]
  · have hage : age_whole_years (73 : ℚ) = 73 := by
      norm_num [age_whole_years]
    rw [compute_rmd_amount, divisor_for_age]
    try dsimp only
    rw [hage]
    norm_num [UNIFORM_LIFETIME_DIVISORS]
  · rw [hex]
    simpa using fb
  · intro n hn a hfa
    obtain ⟨jlt, jge⟩ := fc n hn a hfa
    rw [hex]
    exact ⟨jlt, jge⟩

/-- RMD scenario of test_rmd.py: one traditional IRA of 265000, owner aged
73, destination Cash. -/
def rmd_wit_settings : RMDSettings := ⟨true, 73, ["IRA"], some "Cash"⟩

def rmd_wit_bal : String → ℚ := fun n => if n = "IRA" then 265000 else 0

def rmd_wit_prior : String → Option ℚ := fun _ => none

def rmd_wit_ages : String → ℚ := fun _ => 73

/-- Witness for claim C8 at the scenario of test_rmd.py. -/
theorem rmd_spec_witness :
    rmd_wit_settings.enabled = true ∧
    rmd_wit_settings.destination_account = some "Cash" ∧
    (∀ n ∈ rmd_wit_settings.accounts, ∀ a, find_account wit_accounts n = some a →
      (rmd_wit_ages a.owner < (rmd_wit_settings.rmd_start_age : ℚ) →
        (execute_rmds rmd_wit_settings wit_accounts rmd_wit_bal rmd_wit_prior
            rmd_wit_ages).balances n = rmd_wit_bal n) ∧
      ((rmd_wit_settings.rmd_start_age : ℚ) ≤ rmd_wit_ages a.owner →
        (execute_rmds rmd_wit_settings wit_accounts rmd_wit_bal rmd_wit_prior
            rmd_wit_ages).balances n
          = rmd_wit_bal n - min (max 0 (rmd_wit_bal n))
              (compute_rmd_amount (max 0 ((rmd_wit_prior n).getD (rmd_wit_bal n)))
                (rmd_wit_ages a.owner)))) :=
  ⟨rfl, rfl,
   (rmd_spec rmd_wit_settings wit_accounts rmd_wit_bal rmd_wit_prior rmd_wit_ages "Cash"
     rfl rfl (by decide) (by decide)).2.2.2.2⟩

/-! ## engine.py run_deterministic: monthly recording and annual rollup

Model of the accumulation code of run_deterministic: the per-month rollup
`annual.income += month_income; annual.tax_withheld += month_withheld;
annual.withdrawals += month_withdrawals` (engine.py lines 1050-1065), the
December settlement loop, whose funding withdrawals are added to BOTH
month_withdrawals and annual.withdrawals (lines 1116-1125), and the final
MonthResult record built from the updated month totals (lines 1202-1228).
The quantities produced by engine steps 1-21 within the month are
universally quantified inputs: the claimed identity holds for every value
they can take, so nothing else of the month body is needed.  The settlement
loop is hard-capped at 8 iterations, bounding the extras list in the source;
the identity does not depend on that bound. -/

/-- Per-month totals as they stand at the rollup point, plus the settlement
funding batches December adds afterwards. -/
structure MonthStepTotals where
  year : Int
  month : Int
  income : ℚ
  tax_withheld : ℚ
  withdrawals : ℚ
  settlement_extras : List ℚ

/-- The three AnnualResult fields of the claim. -/
structure AnnualAcc where
  income : ℚ
  tax_withheld : ℚ
  withdrawals : ℚ

/-- The three MonthResult fields of the claim. -/
structure MonthRecord where
  year : Int
  month : Int
  income : ℚ
  tax_withheld : ℚ
  withdrawals : ℚ

/-- annual_by_year.setdefault(year, AnnualResult(year)) read access. -/
def get_annual (annual_by_year : List (Int × AnnualAcc)) (y : Int) : AnnualAcc :=
  ((annual_by_year.find? (fun q => q.1 = y)).map Prod.snd).getD ⟨0, 0, 0⟩

/-- Python dict write (update in place, else append). -/
def set_annual : List (Int × AnnualAcc) → Int → AnnualAcc → List (Int × AnnualAcc)
  | [], y, a => [(y, a)]
  | q :: rest, y, a => if q.1 = y then (y, a) :: rest else q :: set_annual rest y a

/-- One month of run_deterministic reduced to its rollup effect. -/
def rollup_month (annual : AnnualAcc) (m : MonthStepTotals) : AnnualAcc × MonthRecord :=
  let annual1 : AnnualAcc :=
    { income := annual.income + m.income
      tax_withheld := annual.tax_withheld + m.tax_withheld
      withdrawals := annual.withdrawals + m.withdrawals }
  let extras := if m.month = 12 then m.settlement_extras.sum else 0
  let annual2 : AnnualAcc := { annual1 with withdrawals := annual1.withdrawals + extras }
  (annual2, ⟨m.year, m.month, m.income, m.tax_withheld, m.withdrawals + extras⟩)

def rollup_fold (acc : List (Int × AnnualAcc) × List MonthRecord) (m : MonthStepTotals) :
    List (Int × AnnualAcc) × List MonthRecord :=
  let r := rollup_month (get_annual acc.1 m.year) m
  (set_annual acc.1 m.year r.1, acc.2 ++ [r.2])

/-- The month loop of run_deterministic, reduced to the rollup. -/
def rollup_run (months : List MonthStepTotals) :
    List (Int × AnnualAcc) × List MonthRecord :=
  months.foldl rollup_fold ([], [])

def records_income_sum (records : List MonthRecord) (y : Int) : ℚ :=
  ((records.filter (fun r => r.year = y)).map (fun r => r.income)).sum

def records_tax_withheld_sum (records : List MonthRecord) (y : Int) : ℚ :=
  ((records.filter (fun r => r.year = y)).map (fun r => r.tax_withheld)).sum

def records_withdrawals_sum (records : List MonthRecord) (y : Int) : ℚ :=
  ((records.filter (fun r => r.year = y)).map (fun r => r.withdrawals)).sum

theorem get_annual_cons (q : Int × AnnualAcc) (rest : List (Int × AnnualAcc)) (y2 : Int) :
    get_annual (q :: rest) y2 = if q.1 = y2 then q.2 else get_annual rest y2 := by
  by_cases h : q.1 = y2
  · rw [if_pos h, get_annual, List.find?_cons_of_pos _ (by simp [h])]
    rfl
  · rw [if_neg h, get_annual, List.find?_cons_of_neg _ (by simp [h])]
    rfl

theorem get_set_annual (l : List (Int × AnnualAcc)) (y y2 : Int) (a : AnnualAcc) :
    get_annual (set_annual l y a) y2 = if y2 = y then a else get_annual l y2 := by
  induction l with
  | nil =>
    rw [set_annual, get_annual_cons]
    by_cases h : y2 = y
    · subst h
      simp
    · rw [if_neg h, if_neg (fun hc => h hc.symm : ¬ (y, a).1 = y2)]
  | cons q rest ih =>
    rw [set_annual]
    by_cases hq : q.1 = y
    · rw [if_pos hq, get_annual_cons, get_annual_cons]
      by_cases h : y2 = y
      · subst h
        simp
      · have h2 : ¬ ((y, a) : Int × AnnualAcc).1 = y2 := fun hc => h hc.symm
        have hq2 : ¬ q.1 = y2 := by rw [hq]; exact fun hc => h hc.symm
        rw [if_neg h2, if_neg h, if_neg hq2]
    · rw [if_neg hq, get_annual_cons, get_annual_cons]
      by_cases h : y2 = y
      · subst h
        have hq2 : ¬ q.1 = y2 := hq
        rw [if_neg hq2, ih]
        simp
      · rw [if_neg h]
        by_cases hq2 : q.1 = y2
        · rw [if_pos hq2, if_pos hq2]
        · rw [if_neg hq2, if_neg hq2, ih, if_neg h]

theorem records_sum_append (records : List MonthRecord) (mr : MonthRecord) (y : Int) :
    records_income_sum (records ++ [mr]) y
      = records_income_sum records y + (if mr.year = y then mr.income else 0) ∧
    records_tax_withheld_sum (records ++ [mr]) y
      = records_tax_withheld_sum records y + (if mr.year = y then mr.tax_withheld else 0) ∧
    records_withdrawals_sum (records ++ [mr]) y
      = records_withdrawals_sum records y + (if mr.year = y then mr.withdrawals else 0) := by
  by_cases h : mr.year = y <;>
    simp [records_income_sum, records_tax_withheld_sum, records_withdrawals_sum,
      List.filter_append, h]

/-- Fold invariant: each annual accumulator equals the per-year sums of the
already-recorded months. -/
theorem rollup_fold_invariant (months : List MonthStepTotals)
    (acc : List (Int × AnnualAcc) × List MonthRecord)
    (hinv : ∀ y, (get_annual acc.1 y).income = records_income_sum acc.2 y ∧
      (get_annual acc.1 y).tax_withheld = records_tax_withheld_sum acc.2 y ∧
      (get_annual acc.1 y).withdrawals = records_withdrawals_sum acc.2 y) :
    ∀ y, (get_annual (months.foldl rollup_fold acc).1 y).income
        = records_income_sum (months.foldl rollup_fold acc).2 y ∧
      (get_annual (months.foldl rollup_fold acc).1 y).tax_withheld
        = records_tax_withheld_sum (months.foldl rollup_fold acc).2 y ∧
      (get_annual (months.foldl rollup_fold acc).1 y).withdrawals
        = records_withdrawals_sum (months.foldl rollup_fold acc).2 y := by
  induction months generalizing acc with
  | nil => exact hinv
  | cons m rest ih =>
    have hfold : (m :: rest).foldl rollup_fold acc = rest.foldl rollup_fold (rollup_fold acc m) :=
      rfl
    rw [hfold]
    refine ih (rollup_fold acc m) ?_
    intro y
    obtain ⟨h1, h2, h3⟩ := hinv y
    obtain ⟨hy1, hy2, hy3⟩ := hinv m.year
    have hrec : (rollup_fold acc m).2 = acc.2 ++ [(rollup_month (get_annual acc.1 m.year) m).2] :=
      rfl
    have hmap : (rollup_fold acc m).1 = set_annual acc.1 m.year (rollup_month (get_annual acc.1 m.year) m).1 :=
      rfl
    obtain ⟨hs1, hs2, hs3⟩ :=
      records_sum_append acc.2 (rollup_month (get_annual acc.1 m.year) m).2 y
    rw [hrec, hmap, hs1, hs2, hs3, get_set_annual]
    by_cases hy : y = m.year
    · subst hy
      refine ⟨?_, ?_, ?_⟩ <;>
        simp [rollup_month, hy1, hy2, hy3] <;> ring
    · have hyne : ¬ (rollup_month (get_annual acc.1 m.year) m).2.year = y := by
        simp only [rollup_month]
        exact fun hc => hy hc.symm
      rw [if_neg hy, if_neg hyne, if_neg hyne, if_neg hyne]
      refine ⟨by rw [h1]; ring, by rw [h2]; ring, by rw [h3]; ring⟩

/-- Claim C9: in every run, for every year, the sums of the monthly income,
tax_withheld and withdrawals records over that year equal the corresponding
annual fields — exactly, over exact arithmetic; the December settlement
extras are added to both sides by the source, preserving the identity. -/
theorem annual_rollup_matches_monthly_sums (months : List MonthStepTotals) (y : Int) :
    (get_annual (rollup_run months).1 y).income
        = records_income_sum (rollup_run months).2 y ∧
    (get_annual (rollup_run months).1 y).tax_withheld
        = records_tax_withheld_sum (rollup_run months).2 y ∧
    (get_annual (rollup_run months).1 y).withdrawals
        = records_withdrawals_sum (rollup_run months).2 y := by
  refine rollup_fold_invariant months ([], []) ?_ y
  intro y2
  refine ⟨?_, ?_, ?_⟩ <;>
    simp [get_annual, records_income_sum, records_tax_withheld_sum, records_withdrawals_sum]

end TFP
